import Mathlib

/-!
# Google CSE scanner (lib/remote/googlecse_scanner.go)

A shallow embedding of the scanner in `src/lib/remote/googlecse_scanner.go`
and theorems about it.

Modelling conventions.

* Go's `int` is taken to be 64 bits wide, so `int(s.MaxResults)` is the
  identity on `int64` and both are embedded as `Int`.  In `search` the
  variable `offset` always equals `len(results)` when the addition
  `offset += int64(len(searchQuery.Items))` runs, hence it is a valid slice
  length and the addition never wraps; it is embedded as plain addition.
* A Go `error` is `Option GoError` (`none` is `nil`).  Pairs `(value, error)`
  returned by Go functions are embedded as pairs.
* The remote client is a state machine: `Service.Do` takes the client's
  state and a request, and gives a reply and the next state.  Every run
  records the exchanges it performed, in order.
* The loop of `search` need not terminate, so it is run with fuel: one unit
  per iteration.  A run whose `ret` is `none` was still looping when the fuel
  ran out.
-/

namespace GoogleCSE

/-! ## Errors -/

/-- The two sentinel errors of `strconv`: `ErrSyntax` and `ErrRange`. -/
inductive NumErr
  | ErrSyntax
  | ErrRange
  deriving DecidableEq, Repr

/-- Error values the scanner can meet.  `errorString` is what `errors.New`
builds, `googleapi` is a `*googleapi.Error` (fields `Code` and `Message`),
`numError` is a `*strconv.NumError`, and `other` is any other error value
(transport failures and the like).  Pointers held by an error are not nil. -/
inductive GoError
  | errorString (s : String)
  | googleapi (Code : Int) (Message : String)
  | numError (Func : String) (Num : String) (Err : NumErr)
  | other (msg : String)
  deriving DecidableEq, Repr

/-! ## strconv.Atoi (Go standard library, 64-bit `int`) -/

/-- Outcome of the digit loop of `strconv.ParseUint` in base 10. -/
inductive Digits
  | value (n : Nat)
  | syntaxErr
  | rangeErr
  deriving DecidableEq, Repr

/-- Digit loop of `strconv.ParseUint(s, 10, 64)`: a byte that is not a
decimal digit is a syntax error, a value above `2^64 - 1` is a range error,
whichever comes first from the left. -/
def parseDigits : List Char → Nat → Digits
  | [], n => Digits.value n
  | c :: cs, n =>
    if '0' ≤ c ∧ c ≤ '9' then
      if n ≥ (2 ^ 64 - 1) / 10 + 1 then Digits.rangeErr
      else
        let n1 := n * 10 + (c.toNat - '0'.toNat)
        if n1 > 2 ^ 64 - 1 then Digits.rangeErr else parseDigits cs n1
    else Digits.syntaxErr

/-- Go's `strconv.Atoi`: an optional sign followed by one or more decimal
digits, within the range of a 64-bit `int`.  Returns `(value, error)`. -/
def Atoi (s : String) : Int × Option GoError :=
  match s.data with
  | [] => (0, some (GoError.numError "Atoi" s NumErr.ErrSyntax))
  | c :: rest =>
    let neg : Bool := c = '-'
    let ds : List Char := if c = '-' ∨ c = '+' then rest else c :: rest
    match ds with
    | [] => (0, some (GoError.numError "Atoi" s NumErr.ErrSyntax))
    | d :: ds' =>
      match parseDigits (d :: ds') 0 with
      | Digits.syntaxErr => (0, some (GoError.numError "Atoi" s NumErr.ErrSyntax))
      | Digits.rangeErr =>
        (if neg then -(2 ^ 63) else 2 ^ 63 - 1,
          some (GoError.numError "Atoi" s NumErr.ErrRange))
      | Digits.value un =>
        if neg = false ∧ un ≥ 2 ^ 63 then
          (2 ^ 63 - 1, some (GoError.numError "Atoi" s NumErr.ErrRange))
        else if neg = true ∧ un > 2 ^ 63 then
          (-(2 ^ 63), some (GoError.numError "Atoi" s NumErr.ErrRange))
        else
          (if neg then -(un : Int) else (un : Int), none)

/-! ## Data model -/

/-- The `googleCSEScanner` struct. -/
structure googleCSEScanner where
  Cx : String
  ApiKey : String
  MaxResults : Int
  deriving DecidableEq, Repr

/-- The `ResultItem` struct. -/
structure ResultItem where
  Title : String
  URL : String
  deriving DecidableEq, Repr

/-- The `GoogleCSEScannerResponse` struct. -/
structure GoogleCSEScannerResponse where
  Homepage : String
  ResultCount : Int
  Items : List ResultItem
  deriving DecidableEq, Repr

/-- The fields of `customsearch.Result` that the scanner reads. -/
structure Result where
  Title : String
  Link : String
  deriving DecidableEq, Repr

/-- The fields of `customsearch.Search` that the scanner reads: `Items` and
`SearchInformation.TotalResults`. -/
structure Search where
  Items : List Result
  TotalResults : String
  deriving DecidableEq, Repr

/-- A `Cse.List()` call as the scanner configures it: `Cx`, `Q` and `Start`. -/
structure Request where
  Cx : String
  Q : String
  Start : Int
  deriving DecidableEq, Repr

/-- What `search.Do()` returns: a page, or an error. -/
inductive Reply
  | ok (page : Search)
  | fail (err : GoError)
  deriving DecidableEq, Repr

/-- One request together with the reply it received. -/
structure Exchange where
  req : Request
  reply : Reply
  deriving DecidableEq, Repr

/-- The remote client (`*customsearch.Service`) as a state machine over
client states `σ`. -/
structure Service (σ : Type) where
  Do : σ → Request → Reply × σ

/-- The field of `GoogleSearchDork` that the scanner reads. -/
structure GoogleSearchDork where
  Dork : String
  deriving DecidableEq, Repr

/-- The collaborators of `Scan`: the four dork generators over phone numbers
`ν`, and `customsearch.NewService` as a function of the API key. -/
structure Env (ν σ : Type) where
  getDisposableProvidersDorks : ν → List GoogleSearchDork
  getReputationDorks : ν → List GoogleSearchDork
  getIndividualsDorks : ν → List GoogleSearchDork
  getGeneralDorks : ν → List GoogleSearchDork
  NewService : String → Except GoError (Service σ)

/-- A run of a piece of code against the client: the value returned
(`none` when the fuel ran out first), the client state afterwards, and the
exchanges performed, oldest first. -/
structure Run (σ α : Type) where
  ret : Option α
  state : σ
  trace : List Exchange

/-- The run that first performs exchange `ex` and then continues as `r`. -/
def Run.after {σ α : Type} (ex : Exchange) (r : Run σ α) : Run σ α :=
  { r with trace := ex :: r.trace }

/-- The run that first performs the exchanges `pre` and then continues as `r`. -/
def Run.afterAll {σ α : Type} (pre : List Exchange) (r : Run σ α) : Run σ α :=
  { r with trace := pre ++ r.trace }

/-! ## The scanner -/

/-- The environment variable lookup and clamping of `NewGoogleCSEScanner`
(lines 37-46): `v` is the value of `GOOGLECSE_MAX_RESULTS`. -/
def maxResultsOf (v : String) : Int :=
  if v ≠ "" then
    match Atoi v with
    | (val, none) => if val > 100 then 100 else val
    | (_, some _) => 10
  else 10

/-- The constructor `NewGoogleCSEScanner`, as a function of the values of
`GOOGLECSE_MAX_RESULTS`, `GOOGLECSE_CX` and `GOOGLECSE_API_KEY`. -/
def NewGoogleCSEScanner (maxResultsEnv cxEnv apiKeyEnv : String) : googleCSEScanner :=
  { Cx := cxEnv, ApiKey := apiKeyEnv, MaxResults := maxResultsOf maxResultsEnv }

/-- The method `ShouldRun`. -/
def googleCSEScanner.ShouldRun {ν : Type} (s : googleCSEScanner) (_ : ν) : Bool :=
  if s.Cx = "" ∨ s.ApiKey = "" then false else true

/-- The method `isRateLimit`. -/
def googleCSEScanner.isRateLimit (_ : googleCSEScanner) (theError : Option GoError) : Bool :=
  match theError with
  | none => false
  | some (GoError.googleapi Code _) => if Code ≠ 429 then false else true
  | some _ => false

/-- The loop of `search` (lines 108-126), with `offset` and `results` as
loop variables and one unit of fuel per iteration. -/
def googleCSEScanner.searchLoop {σ : Type} (s : googleCSEScanner) (service : Service σ)
    (q : String) : Nat → Int → List Result → σ → Run σ (List Result × Option GoError)
  | 0, offset, results, st =>
    if offset ≤ s.MaxResults then ⟨none, st, []⟩ else ⟨some (results, none), st, []⟩
  | fuel + 1, offset, results, st =>
    if offset ≤ s.MaxResults then
      let req : Request := ⟨s.Cx, q, offset⟩
      let out := service.Do st req
      match out.1 with
      | Reply.fail err => ⟨some ([], some err), out.2, [⟨req, out.1⟩]⟩
      | Reply.ok searchQuery =>
        let results1 := results ++ searchQuery.Items
        match Atoi searchQuery.TotalResults with
        | (_, some err) => ⟨some ([], some err), out.2, [⟨req, out.1⟩]⟩
        | (totalResults, none) =>
          if totalResults ≤ s.MaxResults then
            ⟨some (results1, none), out.2, [⟨req, out.1⟩]⟩
          else
            Run.after ⟨req, out.1⟩
              (s.searchLoop service q fuel (offset + (searchQuery.Items.length : Int))
                results1 out.2)
    else ⟨some (results, none), st, []⟩

/-- The method `search`. -/
def googleCSEScanner.search {σ : Type} (s : googleCSEScanner) (service : Service σ)
    (fuel : Nat) (q : String) (st : σ) : Run σ (List Result × Option GoError) :=
  s.searchLoop service q fuel 0 [] st

/-- The message of the error `Scan` returns on a rate-limit failure. -/
def rateLimitMessage : String :=
  "rate limit exceeded, see https://developers.google.com/custom-search/v1/overview#pricing"

/-- The loop over the dorks in `Scan` (lines 80-89), with `allItems` as loop
variable.  Returns the accumulated items, or the error `Scan` returns. -/
def googleCSEScanner.scanLoop {σ : Type} (s : googleCSEScanner) (service : Service σ)
    (fuel : Nat) : List GoogleSearchDork → List Result → σ →
    Run σ (List Result × Option GoError)
  | [], allItems, st => ⟨some (allItems, none), st, []⟩
  | req :: rest, allItems, st =>
    let r := s.search service fuel req.Dork st
    match r.ret with
    | none => ⟨none, r.state, r.trace⟩
    | some (_, some err) =>
      if s.isRateLimit (some err) then
        ⟨some ([], some (GoError.errorString rateLimitMessage)), r.state, r.trace⟩
      else ⟨some ([], some err), r.state, r.trace⟩
    | some (items, none) =>
      Run.afterAll r.trace (s.scanLoop service fuel rest (allItems ++ items) r.state)

/-- The dork list `Scan` builds (lines 70-73). -/
def dorksOf {ν σ : Type} (env : Env ν σ) (n : ν) : List GoogleSearchDork :=
  ((([] ++ env.getDisposableProvidersDorks n) ++ env.getReputationDorks n)
    ++ env.getIndividualsDorks n) ++ env.getGeneralDorks n

/-- The response `Scan` builds from the accumulated items (lines 91-99). -/
def googleCSEScanner.buildResponse (s : googleCSEScanner) (allItems : List Result) :
    GoogleCSEScannerResponse :=
  { Homepage := "https://cse.google.com/cse?cx=" ++ s.Cx
    Items := allItems.foldl (fun items item => items ++ [⟨item.Title, item.Link⟩]) []
    ResultCount := (allItems.length : Int) }

/-- The method `Scan`: returns `(response, error)`, the response being `none`
for Go's `nil`. -/
def googleCSEScanner.Scan {ν σ : Type} (s : googleCSEScanner) (env : Env ν σ)
    (fuel : Nat) (n : ν) (st : σ) :
    Run σ (Option GoogleCSEScannerResponse × Option GoError) :=
  let dorks := dorksOf env n
  match env.NewService s.ApiKey with
  | Except.error err => ⟨some (none, some err), st, []⟩
  | Except.ok customsearchService =>
    let r := s.scanLoop customsearchService fuel dorks [] st
    match r.ret with
    | none => ⟨none, r.state, r.trace⟩
    | some (_, some err) => ⟨some (none, some err), r.state, r.trace⟩
    | some (allItems, none) => ⟨some (some (s.buildResponse allItems), none), r.state, r.trace⟩


/-! ## Vocabulary for the statements -/

/-- The items of the page an exchange delivered (none when the request failed). -/
def Exchange.items (ex : Exchange) : List Result :=
  match ex.reply with
  | Reply.ok page => page.Items
  | Reply.fail _ => []

/-- The error an exchange makes `search` fail with, if any: the error of the
request itself, or the error of parsing the page's total-result-count. -/
def Exchange.failure (ex : Exchange) : Option GoError :=
  match ex.reply with
  | Reply.fail err => some err
  | Reply.ok page => (Atoi page.TotalResults).2

/-- The item lists returned by `search` for each dork in turn, every search
starting in the client state the previous one left; the list ends early at a
search that does not return successfully. -/
def searchedItems {σ : Type} (s : googleCSEScanner) (service : Service σ) (fuel : Nat) :
    List GoogleSearchDork → σ → List (List Result)
  | [], _ => []
  | d :: ds, st =>
    match (s.search service fuel d.Dork st).ret with
    | some (items, none) =>
      items :: searchedItems s service fuel ds (s.search service fuel d.Dork st).state
    | _ => []

/-- The successive start offsets relation: the later request starts where the
earlier one started plus the number of items the earlier page held. -/
def NextOffset (a b : Exchange) : Prop :=
  b.req.Start = a.req.Start + (a.items.length : Int)

/-- Shape of a trace with respect to failures: without an error no exchange
of the trace failed; with an error `e` the last exchange failed with `e` and
none before it failed. -/
def TraceShape (tr : List Exchange) : Option GoError → Prop
  | none => ∀ ex ∈ tr, ex.failure = none
  | some e => ∃ pre ex, tr = pre ++ [ex] ∧ (∀ x ∈ pre, x.failure = none) ∧ ex.failure = some e

/-- The error a run returned, if it returned one. -/
def Run.err {σ α : Type} (r : Run σ (α × Option GoError)) : Option GoError :=
  match r.ret with
  | some (_, some e) => some e
  | _ => none

/-- The error `Scan` returns when a search failed with `e` (lines 83-86). -/
def googleCSEScanner.scanError (s : googleCSEScanner) (e : GoError) : GoError :=
  if s.isRateLimit (some e) then GoError.errorString rateLimitMessage else e

/-! ## Stub collaborators used to instantiate the theorems -/

/-- A stub client that answers by query: `"limit"` fails with a 429 API
error, `"down"` fails with a transport error, `"bad"` delivers a page whose
total-result-count is not a number, and any other query delivers a page of
two items with total-result-count `"5"`.  Its state counts the requests. -/
def stubService : Service Nat :=
  ⟨fun st req =>
    (if req.Q = "limit" then Reply.fail (GoError.googleapi 429 "quota")
      else if req.Q = "down" then Reply.fail (GoError.other "timeout")
      else if req.Q = "bad" then Reply.ok ⟨[⟨"t", "u"⟩], "many"⟩
      else Reply.ok ⟨[⟨"title", "link"⟩, ⟨"", ""⟩], "5"⟩,
      st + 1)⟩

/-- Stub collaborators: each generator returns one dork, the reputation dork
being the phone number itself, and the client is `stubService`. -/
def stubEnv : Env String Nat :=
  { getDisposableProvidersDorks := fun _ => [⟨"first"⟩]
    getReputationDorks := fun n => [⟨n⟩]
    getIndividualsDorks := fun _ => [⟨"third"⟩]
    getGeneralDorks := fun _ => [⟨"fourth"⟩]
    NewService := fun _ => Except.ok stubService }

/-- A configured scanner with the default cap of 10. -/
def stubScanner : googleCSEScanner := ⟨"cx", "key", 10⟩

/-- A stub client that answers every request with a page of no items that
reports a total-result-count of `"25"`. -/
def emptyPagesService : Service Unit :=
  ⟨fun st _ => (Reply.ok ⟨[], "25"⟩, st)⟩

/-- A stub client that answers every request with a page of ten items that
reports a total-result-count of `"25"`. -/
def pagingService : Service Unit :=
  ⟨fun st _ => (Reply.ok ⟨List.replicate 10 ⟨"t", "l"⟩, "25"⟩, st)⟩

/-- A configured scanner with a cap of 5. -/
def capFiveScanner : googleCSEScanner := ⟨"cx", "key", 5⟩

/-- The runs of `search` on each query of a list in turn, every search
starting in the client state the previous one left. -/
def searchRuns {σ : Type} (s : googleCSEScanner) (service : Service σ) (fuel : Nat) :
    List String → σ → List (Run σ (List Result × Option GoError))
  | [], _ => []
  | q :: qs, st =>
    s.search service fuel q st :: searchRuns s service fuel qs (s.search service fuel q st).state

/-! ## Integers denoted by strings -/

/-- The number a list of decimal digits denotes, continuing from `n`; `none`
when some character is not a decimal digit.  There is no bound on the value. -/
def digitsValue : List Char → Nat → Option Nat
  | [], n => some n
  | c :: cs, n =>
    if '0' ≤ c ∧ c ≤ '9' then digitsValue cs (n * 10 + (c.toNat - '0'.toNat)) else none

/-- The integer a string denotes: an optional sign `+` or `-` followed by one
or more decimal digits; `none` when the string is not of that form.  There is
no bound on the value. -/
def denotedInt (s : String) : Option Int :=
  match s.data with
  | [] => none
  | c :: rest =>
    match (if c = '-' ∨ c = '+' then rest else c :: rest) with
    | [] => none
    | d :: ds =>
      match digitsValue (d :: ds) 0 with
      | none => none
      | some un => some (if c = '-' then -(un : Int) else (un : Int))

/-! ## Lemmas about `Atoi` and `isRateLimit` -/

theorem Atoi_error_numError (str : String) (e : GoError) (h : (Atoi str).2 = some e) :
    ∃ k, e = GoError.numError "Atoi" str k := by
  unfold Atoi at h
  split at h
  · exact ⟨_, by simpa using h.symm⟩
  · simp only at h
    split at h
    · exact ⟨_, by simpa using h.symm⟩
    · split at h
      · exact ⟨_, by simpa using h.symm⟩
      · exact ⟨_, by simpa using h.symm⟩
      · split_ifs at h
        · exact ⟨_, by simpa using h.symm⟩
        · exact ⟨_, by simpa using h.symm⟩

theorem isRateLimit_numError (s : googleCSEScanner) (f n : String) (k : NumErr) :
    s.isRateLimit (some (GoError.numError f n k)) = false := rfl

theorem isRateLimit_eq_true_iff (s : googleCSEScanner) (err : Option GoError) :
    s.isRateLimit err = true ↔ ∃ msg, err = some (GoError.googleapi 429 msg) := by
  cases err with
  | none => simp [googleCSEScanner.isRateLimit]
  | some e =>
    cases e with
    | googleapi c m =>
      by_cases hc : c = 429
      · subst hc; simp [googleCSEScanner.isRateLimit]
      · simp [googleCSEScanner.isRateLimit, hc]
    | errorString m => simp [googleCSEScanner.isRateLimit]
    | numError f n k => simp [googleCSEScanner.isRateLimit]
    | other m => simp [googleCSEScanner.isRateLimit]

/-! ## Lemmas about the loop of `search` -/

theorem searchLoop_zero {σ : Type} (s : googleCSEScanner) (service : Service σ) (q : String)
    (offset : Int) (results : List Result) (st : σ) :
    s.searchLoop service q 0 offset results st =
      if offset ≤ s.MaxResults then ⟨none, st, []⟩ else ⟨some (results, none), st, []⟩ := rfl

theorem searchLoop_exit {σ : Type} (s : googleCSEScanner) (service : Service σ) (q : String)
    (fuel : Nat) (offset : Int) (results : List Result) (st : σ)
    (h : ¬ offset ≤ s.MaxResults) :
    s.searchLoop service q fuel offset results st = ⟨some (results, none), st, []⟩ := by
  cases fuel <;> simp [googleCSEScanner.searchLoop, h]

theorem searchLoop_fail {σ : Type} (s : googleCSEScanner) (service : Service σ) (q : String)
    (fuel : Nat) (offset : Int) (results : List Result) (st st1 : σ) (err : GoError)
    (h : offset ≤ s.MaxResults)
    (hdo : service.Do st ⟨s.Cx, q, offset⟩ = (Reply.fail err, st1)) :
    s.searchLoop service q (fuel + 1) offset results st =
      ⟨some ([], some err), st1, [⟨⟨s.Cx, q, offset⟩, Reply.fail err⟩]⟩ := by
  simp [googleCSEScanner.searchLoop, h, hdo]

theorem searchLoop_parse_error {σ : Type} (s : googleCSEScanner) (service : Service σ)
    (q : String) (fuel : Nat) (offset : Int) (results : List Result) (st st1 : σ)
    (page : Search) (v : Int) (err : GoError)
    (h : offset ≤ s.MaxResults)
    (hdo : service.Do st ⟨s.Cx, q, offset⟩ = (Reply.ok page, st1))
    (hparse : Atoi page.TotalResults = (v, some err)) :
    s.searchLoop service q (fuel + 1) offset results st =
      ⟨some ([], some err), st1, [⟨⟨s.Cx, q, offset⟩, Reply.ok page⟩]⟩ := by
  simp [googleCSEScanner.searchLoop, h, hdo, hparse]

theorem searchLoop_break {σ : Type} (s : googleCSEScanner) (service : Service σ)
    (q : String) (fuel : Nat) (offset : Int) (results : List Result) (st st1 : σ)
    (page : Search) (total : Int)
    (h : offset ≤ s.MaxResults)
    (hdo : service.Do st ⟨s.Cx, q, offset⟩ = (Reply.ok page, st1))
    (hparse : Atoi page.TotalResults = (total, none))
    (hle : total ≤ s.MaxResults) :
    s.searchLoop service q (fuel + 1) offset results st =
      ⟨some (results ++ page.Items, none), st1, [⟨⟨s.Cx, q, offset⟩, Reply.ok page⟩]⟩ := by
  simp [googleCSEScanner.searchLoop, h, hdo, hparse, hle]

theorem searchLoop_continue {σ : Type} (s : googleCSEScanner) (service : Service σ)
    (q : String) (fuel : Nat) (offset : Int) (results : List Result) (st st1 : σ)
    (page : Search) (total : Int)
    (h : offset ≤ s.MaxResults)
    (hdo : service.Do st ⟨s.Cx, q, offset⟩ = (Reply.ok page, st1))
    (hparse : Atoi page.TotalResults = (total, none))
    (hgt : ¬ total ≤ s.MaxResults) :
    s.searchLoop service q (fuel + 1) offset results st =
      Run.after ⟨⟨s.Cx, q, offset⟩, Reply.ok page⟩
        (s.searchLoop service q fuel (offset + (page.Items.length : Int))
          (results ++ page.Items) st1) := by
  simp [googleCSEScanner.searchLoop, h, hdo, hparse, hgt]

/-- Induction along the iterations of the loop of `search`: one case for
each way an iteration can end. -/
theorem searchLoop_induction {σ : Type} (s : googleCSEScanner) (service : Service σ)
    (q : String)
    (P : Nat → Int → List Result → σ → Run σ (List Result × Option GoError) → Prop)
    (hzero : ∀ offset results st, offset ≤ s.MaxResults →
      P 0 offset results st ⟨none, st, []⟩)
    (hexit : ∀ fuel offset results st, ¬ offset ≤ s.MaxResults →
      P fuel offset results st ⟨some (results, none), st, []⟩)
    (hfail : ∀ fuel offset results st st1 err, offset ≤ s.MaxResults →
      service.Do st ⟨s.Cx, q, offset⟩ = (Reply.fail err, st1) →
      P (fuel + 1) offset results st
        ⟨some ([], some err), st1, [⟨⟨s.Cx, q, offset⟩, Reply.fail err⟩]⟩)
    (hparse : ∀ fuel offset results st st1 page v err, offset ≤ s.MaxResults →
      service.Do st ⟨s.Cx, q, offset⟩ = (Reply.ok page, st1) →
      Atoi page.TotalResults = (v, some err) →
      P (fuel + 1) offset results st
        ⟨some ([], some err), st1, [⟨⟨s.Cx, q, offset⟩, Reply.ok page⟩]⟩)
    (hbreak : ∀ fuel offset results st st1 page total, offset ≤ s.MaxResults →
      service.Do st ⟨s.Cx, q, offset⟩ = (Reply.ok page, st1) →
      Atoi page.TotalResults = (total, none) → total ≤ s.MaxResults →
      P (fuel + 1) offset results st
        ⟨some (results ++ page.Items, none), st1, [⟨⟨s.Cx, q, offset⟩, Reply.ok page⟩]⟩)
    (hcont : ∀ fuel offset results st st1 page total, offset ≤ s.MaxResults →
      service.Do st ⟨s.Cx, q, offset⟩ = (Reply.ok page, st1) →
      Atoi page.TotalResults = (total, none) → ¬ total ≤ s.MaxResults →
      P fuel (offset + (page.Items.length : Int)) (results ++ page.Items) st1
        (s.searchLoop service q fuel (offset + (page.Items.length : Int))
          (results ++ page.Items) st1) →
      P (fuel + 1) offset results st
        (Run.after ⟨⟨s.Cx, q, offset⟩, Reply.ok page⟩
          (s.searchLoop service q fuel (offset + (page.Items.length : Int))
            (results ++ page.Items) st1)))
    (fuel : Nat) (offset : Int) (results : List Result) (st : σ) :
    P fuel offset results st (s.searchLoop service q fuel offset results st) := by
  induction fuel generalizing offset results st with
  | zero =>
    by_cases h : offset ≤ s.MaxResults
    · rw [searchLoop_zero, if_pos h]; exact hzero _ _ _ h
    · rw [searchLoop_exit _ _ _ _ _ _ _ h]; exact hexit _ _ _ _ h
  | succ fuel ih =>
    by_cases h : offset ≤ s.MaxResults
    · rcases hdo : service.Do st ⟨s.Cx, q, offset⟩ with ⟨reply, st1⟩
      cases reply with
      | fail err =>
        rw [searchLoop_fail _ _ _ _ _ _ _ _ _ h hdo]
        exact hfail _ _ _ _ _ _ h hdo
      | ok page =>
        rcases hp : Atoi page.TotalResults with ⟨total, _ | err⟩
        · by_cases hle : total ≤ s.MaxResults
          · rw [searchLoop_break _ _ _ _ _ _ _ _ _ _ h hdo hp hle]
            exact hbreak _ _ _ _ _ _ _ h hdo hp hle
          · rw [searchLoop_continue _ _ _ _ _ _ _ _ _ _ h hdo hp hle]
            exact hcont _ _ _ _ _ _ _ h hdo hp hle (ih _ _ _)
        · rw [searchLoop_parse_error _ _ _ _ _ _ _ _ _ _ _ h hdo hp]
          exact hparse _ _ _ _ _ _ _ _ h hdo hp
    · rw [searchLoop_exit _ _ _ _ _ _ _ h]; exact hexit _ _ _ _ h

theorem TraceShape.cons {ex : Exchange} {tr : List Exchange} {e : Option GoError}
    (hex : ex.failure = none) (h : TraceShape tr e) : TraceShape (ex :: tr) e := by
  cases e with
  | none =>
    intro x hx
    rcases List.mem_cons.1 hx with rfl | hx
    · exact hex
    · exact h x hx
  | some e =>
    obtain ⟨pre, last, rfl, hpre, hlast⟩ := h
    refine ⟨ex :: pre, last, rfl, ?_, hlast⟩
    intro x hx
    rcases List.mem_cons.1 hx with rfl | hx
    · exact hex
    · exact hpre x hx

theorem TraceShape.append {pre tr : List Exchange} {e : Option GoError}
    (hpre : ∀ x ∈ pre, x.failure = none) (h : TraceShape tr e) : TraceShape (pre ++ tr) e := by
  induction pre with
  | nil => simpa using h
  | cons a pre ih =>
    exact TraceShape.cons (hpre a (List.mem_cons_self _ _))
      (ih (fun x hx => hpre x (List.mem_cons_of_mem _ hx)))

/-- In a trace of shape `e`, an exchange that failed is the last one, and its
failure is `e`. -/
theorem TraceShape.of_failed {tr : List Exchange} {e : Option GoError} (h : TraceShape tr e)
    {ex : Exchange} (hmem : ex ∈ tr) {e0 : GoError} (hfail : ex.failure = some e0) :
    e = some e0 ∧ ∃ pre, tr = pre ++ [ex] ∧ ∀ x ∈ pre, x.failure = none := by
  cases e with
  | none => rw [h ex hmem] at hfail; exact absurd hfail (by simp)
  | some e =>
    obtain ⟨pre, last, rfl, hpre, hlast⟩ := h
    rcases List.mem_append.1 hmem with hm | hm
    · rw [hpre ex hm] at hfail; exact absurd hfail (by simp)
    · have : ex = last := by simpa using hm
      subst this
      rw [hlast] at hfail
      exact ⟨hfail, pre, rfl, hpre⟩

/-- The trace of the loop of `search` has the shape of the error returned, and
an error comes with no items. -/
theorem searchLoop_shape {σ : Type} (s : googleCSEScanner) (service : Service σ) (q : String)
    (fuel : Nat) (offset : Int) (results : List Result) (st : σ) :
    TraceShape (s.searchLoop service q fuel offset results st).trace
      (s.searchLoop service q fuel offset results st).err := by
  refine searchLoop_induction s service q (fun _ _ _ _ r => TraceShape r.trace r.err)
    ?_ ?_ ?_ ?_ ?_ ?_ fuel offset results st
  · intro offset results st _ ex hex; simp at hex
  · intro fuel offset results st _ ex hex; simp at hex
  · intro fuel offset results st st1 err _ _
    exact ⟨[], _, rfl, by simp, rfl⟩
  · intro fuel offset results st st1 page v err _ _ hp
    exact ⟨[], _, rfl, by simp, by simp [Exchange.failure, hp]⟩
  · intro fuel offset results st st1 page total _ _ hp _ ex hex
    have : ex = ⟨⟨s.Cx, q, offset⟩, Reply.ok page⟩ := by simpa using hex
    subst this
    simp [Exchange.failure, hp]
  · intro fuel offset results st st1 page total _ _ hp _ ih
    exact TraceShape.cons (by simp [Exchange.failure, hp]) ih

/-- Offsets and items along the loop of `search`: the first request starts
at the loop's offset, each later one where the previous started plus the
number of items the previous page held, every request carries the scanner's
`Cx` and the query, and a successful run returns the items it started with
followed by the items of the pages in order. -/
theorem searchLoop_offsets {σ : Type} (s : googleCSEScanner) (service : Service σ) (q : String)
    (fuel : Nat) (offset : Int) (results : List Result) (st : σ) :
    (∀ ex ∈ (s.searchLoop service q fuel offset results st).trace.head?,
      ex.req.Start = offset) ∧
    List.Chain' NextOffset (s.searchLoop service q fuel offset results st).trace ∧
    (∀ ex ∈ (s.searchLoop service q fuel offset results st).trace,
      ex.req.Cx = s.Cx ∧ ex.req.Q = q) ∧
    (∀ res, (s.searchLoop service q fuel offset results st).ret = some (res, none) →
      res = results ++
        ((s.searchLoop service q fuel offset results st).trace.map Exchange.items).flatten) := by
  refine searchLoop_induction s service q
    (fun _ offset results _ r =>
      (∀ ex ∈ r.trace.head?, ex.req.Start = offset) ∧ List.Chain' NextOffset r.trace ∧
      (∀ ex ∈ r.trace, ex.req.Cx = s.Cx ∧ ex.req.Q = q) ∧
      (∀ res, r.ret = some (res, none) → res = results ++ (r.trace.map Exchange.items).flatten))
    ?_ ?_ ?_ ?_ ?_ ?_ fuel offset results st
  · intro offset results st _
    simp
  · intro fuel offset results st _
    simp
  · intro fuel offset results st st1 err _ _
    simp
  · intro fuel offset results st st1 page v err _ _ _
    simp
  · intro fuel offset results st st1 page total _ _ _ _
    simp [Exchange.items]
  · intro fuel offset results st st1 page total _ _ _ _ ih
    obtain ⟨ih1, ih2, ih3, ih4⟩ := ih
    refine ⟨by simp [Run.after], ?_, ?_, ?_⟩
    · simp only [Run.after]
      rw [List.chain'_cons']
      refine ⟨?_, ih2⟩
      intro y hy
      rw [NextOffset, ih1 y hy]
      simp [Exchange.items]
    · intro ex hex
      simp only [Run.after] at hex
      rcases List.mem_cons.1 hex with rfl | hex
      · exact ⟨rfl, rfl⟩
      · exact ih3 ex hex
    · intro res hres
      simp only [Run.after] at hres ⊢
      rw [ih4 res hres]
      simp [Exchange.items]

/-- A run of the loop of `search` that returned is not changed by more fuel. -/
theorem searchLoop_more_fuel {σ : Type} (s : googleCSEScanner) (service : Service σ)
    (q : String) (k fuel : Nat) (offset : Int) (results : List Result) (st : σ)
    (h : (s.searchLoop service q fuel offset results st).ret ≠ none) :
    s.searchLoop service q (fuel + k) offset results st =
      s.searchLoop service q fuel offset results st := by
  induction fuel generalizing offset results st with
  | zero =>
    by_cases hc : offset ≤ s.MaxResults
    · rw [searchLoop_zero, if_pos hc] at h
      exact absurd rfl h
    · rw [searchLoop_exit _ _ _ _ _ _ _ hc, searchLoop_exit _ _ _ _ _ _ _ hc]
  | succ fuel ih =>
    have hk : fuel + 1 + k = (fuel + k) + 1 := by omega
    rw [hk]
    by_cases hc : offset ≤ s.MaxResults
    · rcases hdo : service.Do st ⟨s.Cx, q, offset⟩ with ⟨reply, st1⟩
      cases reply with
      | fail err =>
        rw [searchLoop_fail _ _ _ _ _ _ _ _ _ hc hdo, searchLoop_fail _ _ _ _ _ _ _ _ _ hc hdo]
      | ok page =>
        rcases hp : Atoi page.TotalResults with ⟨total, _ | err⟩
        · by_cases hle : total ≤ s.MaxResults
          · rw [searchLoop_break _ _ _ _ _ _ _ _ _ _ hc hdo hp hle,
              searchLoop_break _ _ _ _ _ _ _ _ _ _ hc hdo hp hle]
          · rw [searchLoop_continue _ _ _ _ _ _ _ _ _ _ hc hdo hp hle] at h ⊢
            rw [searchLoop_continue _ _ _ _ _ _ _ _ _ _ hc hdo hp hle]
            rw [ih _ _ _ h]
        · rw [searchLoop_parse_error _ _ _ _ _ _ _ _ _ _ _ hc hdo hp,
            searchLoop_parse_error _ _ _ _ _ _ _ _ _ _ _ hc hdo hp]
    · rw [searchLoop_exit _ _ _ _ _ _ _ hc, searchLoop_exit _ _ _ _ _ _ _ hc]

/-! ## Lemmas about the loop of `Scan` -/

theorem search_shape {σ : Type} (s : googleCSEScanner) (service : Service σ) (fuel : Nat)
    (q : String) (st : σ) :
    TraceShape (s.search service fuel q st).trace (s.search service fuel q st).err :=
  searchLoop_shape s service q fuel 0 [] st

theorem scanLoop_nil {σ : Type} (s : googleCSEScanner) (service : Service σ) (fuel : Nat)
    (allItems : List Result) (st : σ) :
    s.scanLoop service fuel [] allItems st = ⟨some (allItems, none), st, []⟩ := rfl

theorem scanLoop_cons_out_of_fuel {σ : Type} (s : googleCSEScanner) (service : Service σ)
    (fuel : Nat) (d : GoogleSearchDork) (ds : List GoogleSearchDork) (allItems : List Result)
    (st : σ) (h : (s.search service fuel d.Dork st).ret = none) :
    s.scanLoop service fuel (d :: ds) allItems st =
      ⟨none, (s.search service fuel d.Dork st).state, (s.search service fuel d.Dork st).trace⟩ := by
  simp [googleCSEScanner.scanLoop, h]

theorem scanLoop_cons_error {σ : Type} (s : googleCSEScanner) (service : Service σ)
    (fuel : Nat) (d : GoogleSearchDork) (ds : List GoogleSearchDork) (allItems : List Result)
    (st : σ) (items : List Result) (e : GoError)
    (h : (s.search service fuel d.Dork st).ret = some (items, some e)) :
    s.scanLoop service fuel (d :: ds) allItems st =
      ⟨some ([], some (s.scanError e)), (s.search service fuel d.Dork st).state,
        (s.search service fuel d.Dork st).trace⟩ := by
  simp only [googleCSEScanner.scanLoop, h, googleCSEScanner.scanError]
  split_ifs <;> rfl

theorem scanLoop_cons_ok {σ : Type} (s : googleCSEScanner) (service : Service σ)
    (fuel : Nat) (d : GoogleSearchDork) (ds : List GoogleSearchDork) (allItems : List Result)
    (st : σ) (items : List Result)
    (h : (s.search service fuel d.Dork st).ret = some (items, none)) :
    s.scanLoop service fuel (d :: ds) allItems st =
      Run.afterAll (s.search service fuel d.Dork st).trace
        (s.scanLoop service fuel ds (allItems ++ items)
          (s.search service fuel d.Dork st).state) := by
  simp [googleCSEScanner.scanLoop, h]

/-- The three ways a run of `search` can end. -/
theorem search_ret_cases {σ : Type} (r : Run σ (List Result × Option GoError)) :
    r.ret = none ∨ (∃ items e, r.ret = some (items, some e)) ∨
      ∃ items, r.ret = some (items, none) := by
  rcases h : r.ret with _ | ⟨items, _ | e⟩
  · exact Or.inl rfl
  · exact Or.inr (Or.inr ⟨items, rfl⟩)
  · exact Or.inr (Or.inl ⟨items, e, rfl⟩)

/-- A successful loop of `Scan` ran a successful search for every dork and
accumulated the items of the searches in order. -/
theorem scanLoop_items {σ : Type} (s : googleCSEScanner) (service : Service σ) (fuel : Nat)
    (dorks : List GoogleSearchDork) (acc : List Result) (st : σ) (all : List Result)
    (h : (s.scanLoop service fuel dorks acc st).ret = some (all, none)) :
    (searchedItems s service fuel dorks st).length = dorks.length ∧
      all = acc ++ (searchedItems s service fuel dorks st).flatten := by
  induction dorks generalizing acc st with
  | nil =>
    rw [scanLoop_nil] at h
    simp only [Option.some.injEq, Prod.mk.injEq, and_true] at h
    simp [searchedItems, h]
  | cons d ds ih =>
    rcases search_ret_cases (s.search service fuel d.Dork st) with h0 | ⟨items, e, h1⟩ | ⟨items, h2⟩
    · rw [scanLoop_cons_out_of_fuel _ _ _ _ _ _ _ h0] at h
      simp at h
    · rw [scanLoop_cons_error _ _ _ _ _ _ _ _ _ h1] at h
      simp at h
    · rw [scanLoop_cons_ok _ _ _ _ _ _ _ _ h2] at h
      obtain ⟨ihl, ihe⟩ := ih (acc ++ items) _ h
      simp only [searchedItems, h2]
      refine ⟨by simp [ihl], ?_⟩
      rw [ihe]
      simp

/-- The trace of the loop of `Scan` has the shape of the failure of its last
search, and the error returned is that failure passed through `scanError`. -/
theorem scanLoop_shape {σ : Type} (s : googleCSEScanner) (service : Service σ) (fuel : Nat)
    (dorks : List GoogleSearchDork) (acc : List Result) (st : σ) :
    ∃ e0 : Option GoError, TraceShape (s.scanLoop service fuel dorks acc st).trace e0 ∧
      (s.scanLoop service fuel dorks acc st).err = e0.map s.scanError ∧
      ((s.scanLoop service fuel dorks acc st).err = none ∨
        ∃ e, (s.scanLoop service fuel dorks acc st).ret = some ([], some e)) := by
  induction dorks generalizing acc st with
  | nil =>
    refine ⟨none, ?_, rfl, Or.inl rfl⟩
    intro ex hex
    simp [scanLoop_nil] at hex
  | cons d ds ih =>
    have hs := search_shape s service fuel d.Dork st
    rcases search_ret_cases (s.search service fuel d.Dork st) with h0 | ⟨items, e, h1⟩ | ⟨items, h2⟩
    · rw [scanLoop_cons_out_of_fuel _ _ _ _ _ _ _ h0]
      refine ⟨none, ?_, rfl, Or.inl rfl⟩
      simpa [Run.err, h0] using hs
    · rw [scanLoop_cons_error _ _ _ _ _ _ _ _ _ h1]
      refine ⟨some e, ?_, rfl, Or.inr ⟨_, rfl⟩⟩
      simpa [Run.err, h1] using hs
    · rw [scanLoop_cons_ok _ _ _ _ _ _ _ _ h2]
      obtain ⟨e0, ih1, ih2, ih3⟩ := ih (acc ++ items) (s.search service fuel d.Dork st).state
      have hpre : ∀ x ∈ (s.search service fuel d.Dork st).trace, x.failure = none := by
        simpa [Run.err, h2] using hs
      exact ⟨e0, TraceShape.append hpre ih1, ih2, ih3⟩

/-- A loop of `Scan` that returned an error ran successful searches for a
first part of the dorks, then the failing search, and nothing after it. -/
theorem scanLoop_error_split {σ : Type} (s : googleCSEScanner) (service : Service σ)
    (fuel : Nat) (dorks : List GoogleSearchDork) (acc : List Result) (st : σ)
    (x : List Result) (e : GoError)
    (h : (s.scanLoop service fuel dorks acc st).ret = some (x, some e)) :
    ∃ pre d post acc1 st1 tr1 items e0,
      dorks = pre ++ d :: post ∧
      s.scanLoop service fuel pre acc st = ⟨some (acc1, none), st1, tr1⟩ ∧
      (s.search service fuel d.Dork st1).ret = some (items, some e0) ∧
      e = s.scanError e0 ∧
      (s.scanLoop service fuel dorks acc st).trace =
        tr1 ++ (s.search service fuel d.Dork st1).trace ∧
      (s.scanLoop service fuel dorks acc st).state = (s.search service fuel d.Dork st1).state := by
  induction dorks generalizing acc st with
  | nil => simp [scanLoop_nil] at h
  | cons d ds ih =>
    rcases search_ret_cases (s.search service fuel d.Dork st) with h0 | ⟨items, e1, h1⟩ | ⟨items, h2⟩
    · rw [scanLoop_cons_out_of_fuel _ _ _ _ _ _ _ h0] at h
      simp at h
    · rw [scanLoop_cons_error _ _ _ _ _ _ _ _ _ h1] at h ⊢
      simp only [Option.some.injEq, Prod.mk.injEq] at h
      exact ⟨[], d, ds, acc, st, [], items, e1, rfl, rfl, h1, h.2.symm, by simp, rfl⟩
    · rw [scanLoop_cons_ok _ _ _ _ _ _ _ _ h2] at h ⊢
      obtain ⟨pre, d1, post, acc1, st1, tr1, items1, e0, hd, hpre, hfail, he, htr, hst⟩ :=
        ih (acc ++ items) (s.search service fuel d.Dork st).state h
      refine ⟨d :: pre, d1, post, acc1, st1, (s.search service fuel d.Dork st).trace ++ tr1,
        items1, e0, by simp [hd], ?_, hfail, he, ?_, ?_⟩
      · rw [scanLoop_cons_ok _ _ _ _ _ _ _ _ h2, hpre]
        rfl
      · simp only [Run.afterAll]
        rw [htr, List.append_assoc]
      · exact hst

/-! ## Lemmas about `Scan` -/

theorem buildResponse_foldl (acc : List ResultItem) (allItems : List Result) :
    allItems.foldl (fun items item => items ++ [(⟨item.Title, item.Link⟩ : ResultItem)]) acc =
      acc ++ allItems.map (fun item => (⟨item.Title, item.Link⟩ : ResultItem)) := by
  induction allItems generalizing acc with
  | nil => simp
  | cons a l ih => simp [ih]

theorem buildResponse_Items (s : googleCSEScanner) (allItems : List Result) :
    (s.buildResponse allItems).Items =
      allItems.map (fun item => (⟨item.Title, item.Link⟩ : ResultItem)) := by
  simp [googleCSEScanner.buildResponse, buildResponse_foldl]

theorem Scan_newService_error {ν σ : Type} (s : googleCSEScanner) (env : Env ν σ) (fuel : Nat)
    (n : ν) (st : σ) (e : GoError) (h : env.NewService s.ApiKey = Except.error e) :
    s.Scan env fuel n st = ⟨some (none, some e), st, []⟩ := by
  simp [googleCSEScanner.Scan, h]

theorem Scan_out_of_fuel {ν σ : Type} (s : googleCSEScanner) (env : Env ν σ) (fuel : Nat)
    (n : ν) (st : σ) (service : Service σ) (h : env.NewService s.ApiKey = Except.ok service)
    (hr : (s.scanLoop service fuel (dorksOf env n) [] st).ret = none) :
    s.Scan env fuel n st =
      ⟨none, (s.scanLoop service fuel (dorksOf env n) [] st).state,
        (s.scanLoop service fuel (dorksOf env n) [] st).trace⟩ := by
  simp [googleCSEScanner.Scan, h, hr]

theorem Scan_error {ν σ : Type} (s : googleCSEScanner) (env : Env ν σ) (fuel : Nat)
    (n : ν) (st : σ) (service : Service σ) (h : env.NewService s.ApiKey = Except.ok service)
    (x : List Result) (e : GoError)
    (hr : (s.scanLoop service fuel (dorksOf env n) [] st).ret = some (x, some e)) :
    s.Scan env fuel n st =
      ⟨some (none, some e), (s.scanLoop service fuel (dorksOf env n) [] st).state,
        (s.scanLoop service fuel (dorksOf env n) [] st).trace⟩ := by
  simp [googleCSEScanner.Scan, h, hr]

theorem Scan_ok {ν σ : Type} (s : googleCSEScanner) (env : Env ν σ) (fuel : Nat)
    (n : ν) (st : σ) (service : Service σ) (h : env.NewService s.ApiKey = Except.ok service)
    (allItems : List Result)
    (hr : (s.scanLoop service fuel (dorksOf env n) [] st).ret = some (allItems, none)) :
    s.Scan env fuel n st =
      ⟨some (some (s.buildResponse allItems), none),
        (s.scanLoop service fuel (dorksOf env n) [] st).state,
        (s.scanLoop service fuel (dorksOf env n) [] st).trace⟩ := by
  simp [googleCSEScanner.Scan, h, hr]

/-- A successful `Scan` built its client, and its loop over the dorks
returned the items the response was built from. -/
theorem Scan_success_inv {ν σ : Type} (s : googleCSEScanner) (env : Env ν σ) (fuel : Nat)
    (n : ν) (st : σ) (resp : GoogleCSEScannerResponse)
    (h : (s.Scan env fuel n st).ret = some (some resp, none)) :
    ∃ service allItems, env.NewService s.ApiKey = Except.ok service ∧
      (s.scanLoop service fuel (dorksOf env n) [] st).ret = some (allItems, none) ∧
      resp = s.buildResponse allItems := by
  rcases hns : env.NewService s.ApiKey with e | service
  · rw [Scan_newService_error _ _ _ _ _ _ hns] at h
    simp at h
  · rcases search_ret_cases (s.scanLoop service fuel (dorksOf env n) [] st)
      with h0 | ⟨items, e, h1⟩ | ⟨items, h2⟩
    · rw [Scan_out_of_fuel _ _ _ _ _ _ hns h0] at h
      simp at h
    · rw [Scan_error _ _ _ _ _ _ hns _ _ h1] at h
      simp at h
    · rw [Scan_ok _ _ _ _ _ _ hns _ h2] at h
      simp only [Option.some.injEq, Prod.mk.injEq, and_true] at h
      exact ⟨service, items, rfl, h2, h.symm⟩

/-- A `Scan` whose client was built has a trace of the shape of the failure
of its last search, and returns that failure passed through `scanError`,
with no response. -/
theorem Scan_shape {ν σ : Type} (s : googleCSEScanner) (env : Env ν σ) (fuel : Nat)
    (n : ν) (st : σ) (service : Service σ) (h : env.NewService s.ApiKey = Except.ok service) :
    ∃ e0 : Option GoError, TraceShape (s.Scan env fuel n st).trace e0 ∧
      ∀ e, e0 = some e → (s.Scan env fuel n st).ret = some (none, some (s.scanError e)) := by
  obtain ⟨e0, h1, h2, h3⟩ := scanLoop_shape s service fuel (dorksOf env n) [] st
  rcases search_ret_cases (s.scanLoop service fuel (dorksOf env n) [] st)
    with h0 | ⟨items, e, h1'⟩ | ⟨items, h2'⟩
  · rw [Scan_out_of_fuel _ _ _ _ _ _ h h0]
    refine ⟨e0, h1, ?_⟩
    intro e he
    subst he
    simp [Run.err, h0] at h2
  · rw [Scan_error _ _ _ _ _ _ h _ _ h1']
    refine ⟨e0, h1, ?_⟩
    intro e0' he
    subst he
    simp only [Run.err, h1', Option.map_some', Option.some.injEq] at h2
    simp [h2]
  · rw [Scan_ok _ _ _ _ _ _ h _ h2']
    refine ⟨e0, h1, ?_⟩
    intro e he
    subst he
    simp [Run.err, h2'] at h2

/-! ## Lemmas about bounds on the loop of `search` -/

/-- With pages that are never empty, the loop of `search` started at a
non-negative offset returns once it has fuel for `MaxResults + 1 - offset`
iterations, issues at most that many requests, and every request starts
between the loop's offset and `MaxResults`. -/
theorem searchLoop_terminates {σ : Type} (s : googleCSEScanner) (service : Service σ)
    (q : String)
    (hpages : ∀ st req page st1, service.Do st req = (Reply.ok page, st1) →
      1 ≤ page.Items.length)
    (fuel : Nat) (offset : Int) (results : List Result) (st : σ)
    (hfuel : (s.MaxResults + 1 - offset).toNat ≤ fuel) :
    (s.searchLoop service q fuel offset results st).ret ≠ none ∧
      (s.searchLoop service q fuel offset results st).trace.length ≤
        (s.MaxResults + 1 - offset).toNat ∧
      ∀ ex ∈ (s.searchLoop service q fuel offset results st).trace,
        offset ≤ ex.req.Start ∧ ex.req.Start ≤ s.MaxResults := by
  revert hfuel
  refine searchLoop_induction s service q
    (fun fuel offset _ _ r => (s.MaxResults + 1 - offset).toNat ≤ fuel →
      (r.ret ≠ none ∧ r.trace.length ≤ (s.MaxResults + 1 - offset).toNat ∧
        ∀ ex ∈ r.trace, offset ≤ ex.req.Start ∧ ex.req.Start ≤ s.MaxResults))
    ?_ ?_ ?_ ?_ ?_ ?_ fuel offset results st
  · intro offset results st h hfuel
    omega
  · intro fuel offset results st _ _
    simp
  · intro fuel offset results st st1 err h _ _
    refine ⟨by simp, ?_, ?_⟩
    · simp only [List.length_singleton]; omega
    · intro ex hex
      have : ex = ⟨⟨s.Cx, q, offset⟩, Reply.fail err⟩ := by simpa using hex
      subst this
      exact ⟨le_refl _, h⟩
  · intro fuel offset results st st1 page v err h _ _ _
    refine ⟨by simp, ?_, ?_⟩
    · simp only [List.length_singleton]; omega
    · intro ex hex
      have : ex = ⟨⟨s.Cx, q, offset⟩, Reply.ok page⟩ := by simpa using hex
      subst this
      exact ⟨le_refl _, h⟩
  · intro fuel offset results st st1 page total h _ _ _ _
    refine ⟨by simp, ?_, ?_⟩
    · simp only [List.length_singleton]; omega
    · intro ex hex
      have : ex = ⟨⟨s.Cx, q, offset⟩, Reply.ok page⟩ := by simpa using hex
      subst this
      exact ⟨le_refl _, h⟩
  · intro fuel offset results st st1 page total h hdo _ _ ih hfuel
    have hlen := hpages _ _ _ _ hdo
    obtain ⟨ih1, ih2, ih3⟩ := ih (by omega)
    refine ⟨ih1, ?_, ?_⟩
    · simp only [Run.after, List.length_cons]
      omega
    · intro ex hex
      simp only [Run.after] at hex
      rcases List.mem_cons.1 hex with rfl | hex
      · exact ⟨le_refl _, h⟩
      · have := ih3 ex hex
        constructor
        · have h0 := this.1
          simp only at h0 ⊢
          omega
        · exact this.2

/-- With pages of at most `p` items, a successful run of the loop of `search`
that started with `offset` items and issued every request at a start offset
below `MaxResults` returns fewer than `MaxResults + p` items. -/
theorem searchLoop_length_lt {σ : Type} (s : googleCSEScanner) (service : Service σ)
    (q : String) (p : Nat)
    (hpages : ∀ st req page st1, service.Do st req = (Reply.ok page, st1) →
      page.Items.length ≤ p)
    (fuel : Nat) (offset : Int) (results : List Result) (st : σ)
    (hbelow : ∀ ex ∈ (s.searchLoop service q fuel offset results st).trace,
      ex.req.Start ≠ s.MaxResults)
    (hoff : (results.length : Int) = offset)
    (hlt : (results.length : Int) < s.MaxResults + p)
    (res : List Result)
    (hret : (s.searchLoop service q fuel offset results st).ret = some (res, none)) :
    (res.length : Int) < s.MaxResults + p := by
  revert hbelow hoff hlt res
  refine searchLoop_induction s service q
    (fun _ offset results _ r => (∀ ex ∈ r.trace, ex.req.Start ≠ s.MaxResults) →
      (results.length : Int) = offset →
      (results.length : Int) < s.MaxResults + p →
      ∀ res, r.ret = some (res, none) → (res.length : Int) < s.MaxResults + p)
    ?_ ?_ ?_ ?_ ?_ ?_ fuel offset results st
  · intro offset results st _ _ _ _ res hres
    simp at hres
  · intro fuel offset results st _ _ _ hlt res hres
    simp only [Option.some.injEq, Prod.mk.injEq, and_true] at hres
    rw [← hres]; exact hlt
  · intro fuel offset results st st1 err _ _ _ _ _ res hres
    simp at hres
  · intro fuel offset results st st1 page v err _ _ _ _ _ _ res hres
    simp at hres
  · intro fuel offset results st st1 page total h hdo _ _ hbelow hoff _ res hres
    have hlen := hpages _ _ _ _ hdo
    have hne : offset ≠ s.MaxResults :=
      hbelow ⟨⟨s.Cx, q, offset⟩, Reply.ok page⟩ (List.mem_singleton.2 rfl)
    simp only [Option.some.injEq, Prod.mk.injEq, and_true] at hres
    rw [← hres, List.length_append]
    push_cast
    omega
  · intro fuel offset results st st1 page total h hdo _ _ ih hbelow hoff _ res hres
    have hlen := hpages _ _ _ _ hdo
    have hne : offset ≠ s.MaxResults :=
      hbelow ⟨⟨s.Cx, q, offset⟩, Reply.ok page⟩ (List.mem_cons_self _ _)
    refine ih (fun ex hex => hbelow ex (List.mem_cons_of_mem _ hex)) ?_ ?_ res hres
    · rw [List.length_append]; push_cast; omega
    · rw [List.length_append]; push_cast; omega

/-- With a negative cap the loop over the dorks issues no request and
accumulates nothing. -/
theorem scanLoop_negative_cap {σ : Type} (s : googleCSEScanner) (service : Service σ)
    (hneg : s.MaxResults < 0) (fuel : Nat) (dorks : List GoogleSearchDork)
    (acc : List Result) (st : σ) :
    s.scanLoop service fuel dorks acc st = ⟨some (acc, none), st, []⟩ := by
  induction dorks generalizing acc with
  | nil => rfl
  | cons d ds ih =>
    have hs : s.search service fuel d.Dork st = ⟨some ([], none), st, []⟩ :=
      searchLoop_exit s service d.Dork fuel 0 [] st (by omega)
    rw [scanLoop_cons_ok s service fuel d ds acc st [] (by rw [hs]), hs, ih]
    simp [Run.afterAll]

/-- A successful loop of `Scan` performed exactly the requests of one search
per dork, in dork order, and each of those searches returned successfully. -/
theorem scanLoop_runs {σ : Type} (s : googleCSEScanner) (service : Service σ) (fuel : Nat)
    (dorks : List GoogleSearchDork) (acc : List Result) (st : σ) (all : List Result)
    (h : (s.scanLoop service fuel dorks acc st).ret = some (all, none)) :
    (∀ r ∈ searchRuns s service fuel (dorks.map (fun d => d.Dork)) st,
      ∃ items, r.ret = some (items, none)) ∧
    (s.scanLoop service fuel dorks acc st).trace =
      ((searchRuns s service fuel (dorks.map (fun d => d.Dork)) st).map
        (fun r => r.trace)).flatten := by
  induction dorks generalizing acc st with
  | nil => simp [searchRuns, scanLoop_nil]
  | cons d ds ih =>
    rcases search_ret_cases (s.search service fuel d.Dork st) with h0 | ⟨items, e, h1⟩ | ⟨items, h2⟩
    · rw [scanLoop_cons_out_of_fuel _ _ _ _ _ _ _ h0] at h
      simp at h
    · rw [scanLoop_cons_error _ _ _ _ _ _ _ _ _ h1] at h
      simp at h
    · rw [scanLoop_cons_ok _ _ _ _ _ _ _ _ h2] at h ⊢
      obtain ⟨ih1, ih2⟩ := ih (acc ++ items) _ h
      constructor
      · intro r hr
        simp only [List.map_cons, searchRuns, List.mem_cons] at hr
        rcases hr with rfl | hr
        · exact ⟨items, h2⟩
        · exact ih1 r hr
      · simp only [Run.afterAll, List.map_cons, searchRuns, List.flatten_cons]
        rw [ih2]

/-! ## `Atoi` against the integer a string denotes -/

theorem digitsValue_ge (cs : List Char) (n m : Nat) (h : digitsValue cs n = some m) :
    n ≤ m := by
  induction cs generalizing n with
  | nil =>
    simp only [digitsValue, Option.some.injEq] at h
    omega
  | cons c cs ih =>
    simp only [digitsValue] at h
    split_ifs at h
    have := ih _ h
    omega

theorem parseDigits_value (cs : List Char) (n m : Nat) (hn : n < 2 ^ 64)
    (h : parseDigits cs n = Digits.value m) : digitsValue cs n = some m ∧ m < 2 ^ 64 := by
  induction cs generalizing n with
  | nil =>
    simp only [parseDigits, Digits.value.injEq] at h
    subst h
    exact ⟨rfl, hn⟩
  | cons c cs ih =>
    simp only [parseDigits] at h
    simp only [digitsValue]
    split_ifs at h with h1 h2 h3
    rw [if_pos h1]
    refine ih _ ?_ h
    norm_num at h3 ⊢
    omega

theorem parseDigits_of_digitsValue (cs : List Char) (n m : Nat)
    (h : digitsValue cs n = some m) (hm : m < 2 ^ 64) :
    parseDigits cs n = Digits.value m := by
  induction cs generalizing n with
  | nil =>
    simp only [digitsValue, Option.some.injEq] at h
    simp [parseDigits, h]
  | cons c cs ih =>
    simp only [digitsValue] at h
    split_ifs at h with h1
    have hge := digitsValue_ge _ _ _ h
    simp only [parseDigits, if_pos h1]
    have hc : ¬ n ≥ (2 ^ 64 - 1) / 10 + 1 := by
      norm_num at hm hge ⊢
      omega
    have hc2 : ¬ n * 10 + (c.toNat - '0'.toNat) > 2 ^ 64 - 1 := by
      norm_num at hm hge ⊢
      omega
    rw [if_neg hc]
    simp only [if_neg hc2]
    exact ih _ h

/-- A string that `Atoi` parses denotes the value `Atoi` returns, and that
value is in the range of a 64-bit `int`. -/
theorem denoted_of_Atoi (v : String) (val : Int) (h : Atoi v = (val, none)) :
    denotedInt v = some val ∧ -(2 ^ 63) ≤ val ∧ val < 2 ^ 63 := by
  unfold Atoi at h
  unfold denotedInt
  rcases hd : v.data with _ | ⟨c, rest⟩
  · rw [hd] at h
    simp at h
  · rw [hd] at h
    simp only at h ⊢
    generalize (if c = '-' ∨ c = '+' then rest else c :: rest) = ds at h ⊢
    rcases ds with _ | ⟨d, ds⟩
    · simp at h
    · simp only at h ⊢
      rcases hp : parseDigits (d :: ds) 0 with un | _ | _
      · rw [hp] at h
        obtain ⟨hv, hlt⟩ := parseDigits_value _ _ _ (by norm_num) hp
        rw [hv]
        simp only at h ⊢
        by_cases hc : c = '-'
        · subst hc
          simp only [decide_True, Bool.true_eq_false, false_and, if_false, true_and,
            if_true] at h ⊢
          split_ifs at h with h1
          · simp at h
          · simp only [Prod.mk.injEq, and_true] at h
            subst h
            refine ⟨rfl, ?_, ?_⟩ <;> omega
        · simp only [hc, decide_False, true_and, Bool.false_eq_true, false_and, if_false] at h ⊢
          split_ifs at h with h1
          · simp at h
          · simp only [Prod.mk.injEq, and_true] at h
            subst h
            refine ⟨rfl, ?_, ?_⟩ <;> omega
      · rw [hp] at h
        simp at h
      · rw [hp] at h
        simp at h

/-- A string that denotes an integer in the range of a 64-bit `int` is parsed
by `Atoi` to that integer. -/
theorem Atoi_of_denoted (v : String) (val : Int) (h : denotedInt v = some val)
    (hlo : -(2 ^ 63) ≤ val) (hhi : val < 2 ^ 63) : Atoi v = (val, none) := by
  unfold denotedInt at h
  unfold Atoi
  rcases hd : v.data with _ | ⟨c, rest⟩
  · rw [hd] at h
    simp at h
  · rw [hd] at h
    simp only at h ⊢
    generalize (if c = '-' ∨ c = '+' then rest else c :: rest) = ds at h ⊢
    rcases ds with _ | ⟨d, ds⟩
    · simp at h
    · simp only at h ⊢
      rcases hv : digitsValue (d :: ds) 0 with _ | un
      · rw [hv] at h
        simp at h
      · rw [hv] at h
        simp only [Option.some.injEq] at h
        have hun : un < 2 ^ 64 := by
          by_cases hc : c = '-'
          · simp only [hc, if_true] at h
            omega
          · simp only [hc, if_false] at h
            omega
        rw [parseDigits_of_digitsValue _ _ _ hv hun]
        by_cases hc : c = '-'
        · subst hc
          simp only [if_true] at h
          simp only [decide_True, Bool.true_eq_false, false_and, if_false, true_and, if_true]
          rw [if_neg (by omega), h]
        · simp only [hc, if_false] at h
          simp only [hc, decide_False, true_and, Bool.false_eq_true, false_and, if_false]
          rw [if_neg (by omega), h]

/-- A string that denotes no integer is rejected by `Atoi`. -/
theorem Atoi_error_of_not_denoted (v : String) (h : denotedInt v = none) :
    (Atoi v).2 ≠ none := by
  intro hnone
  have hv : Atoi v = ((Atoi v).1, none) := by rw [← hnone]
  rw [(denoted_of_Atoi v _ hv).1] at h
  exact absurd h (by simp)

/-! ## Lemmas about `NewGoogleCSEScanner` -/

theorem maxResultsOf_parsed (v : String) (val : Int) (h : Atoi v = (val, none)) :
    maxResultsOf v = if val > 100 then 100 else val := by
  have hv : v ≠ "" := by
    rintro rfl
    have h2 : (Atoi "").2 = none := by rw [h]
    revert h2
    decide
  simp [maxResultsOf, hv, h]

theorem maxResultsOf_rejected (v : String) (h : (Atoi v).2 ≠ none) : maxResultsOf v = 10 := by
  unfold maxResultsOf
  split_ifs with hv
  · rcases hp : Atoi v with ⟨val, _ | e⟩
    · rw [hp] at h
      exact absurd rfl h
    · rfl
  · rfl

theorem maxResultsOf_empty : maxResultsOf "" = 10 := by decide

/-! ## Claims about `ShouldRun` and `isRateLimit` -/

/-- C1: `ShouldRun` returns true exactly when both `Cx` and `ApiKey` are
non-empty, and its result is the same for any two phone numbers. -/
theorem ShouldRun_iff_configured {ν : Type} (s : googleCSEScanner) (n m : ν) :
    (s.ShouldRun n = true ↔ (s.Cx ≠ "" ∧ s.ApiKey ≠ "")) ∧ s.ShouldRun n = s.ShouldRun m := by
  constructor
  · unfold googleCSEScanner.ShouldRun
    by_cases h1 : s.Cx = "" <;> by_cases h2 : s.ApiKey = "" <;> simp [h1, h2]
  · rfl

/-- C7: `isRateLimit` returns true exactly for a `googleapi` error whose code
is 429; it returns false for nil, for every error that is not a `googleapi`
error, and for every `googleapi` error with another code. -/
theorem isRateLimit_iff_api_429 (s : googleCSEScanner) :
    (∀ err : Option GoError,
      s.isRateLimit err = true ↔ ∃ msg, err = some (GoError.googleapi 429 msg)) ∧
    s.isRateLimit none = false ∧
    (∀ msg, s.isRateLimit (some (GoError.errorString msg)) = false) ∧
    (∀ f n k, s.isRateLimit (some (GoError.numError f n k)) = false) ∧
    (∀ msg, s.isRateLimit (some (GoError.other msg)) = false) ∧
    (∀ c msg, c ≠ 429 → s.isRateLimit (some (GoError.googleapi c msg)) = false) := by
  refine ⟨isRateLimit_eq_true_iff s, rfl, fun _ => rfl, fun _ _ _ => rfl, fun _ => rfl, ?_⟩
  intro c msg hc
  simp [googleCSEScanner.isRateLimit, hc]

/-! ## Claims about `Scan` -/

/-- C2: when `Scan` succeeds, a search ran successfully for every dork, and
the response's items are the item lists those searches returned, concatenated
in dork order, each item mapped to a `ResultItem` with the same title and
with the link as URL. -/
theorem Scan_items_are_searched_items {ν σ : Type} (s : googleCSEScanner) (env : Env ν σ)
    (fuel : Nat) (n : ν) (st : σ) (resp : GoogleCSEScannerResponse)
    (h : (s.Scan env fuel n st).ret = some (some resp, none)) :
    ∃ service, env.NewService s.ApiKey = Except.ok service ∧
      (searchedItems s service fuel (dorksOf env n) st).length = (dorksOf env n).length ∧
      resp.Items =
        (searchedItems s service fuel (dorksOf env n) st).flatten.map
          (fun item => (⟨item.Title, item.Link⟩ : ResultItem)) := by
  obtain ⟨service, allItems, hns, hloop, rfl⟩ := Scan_success_inv s env fuel n st resp h
  obtain ⟨hlen, hall⟩ := scanLoop_items s service fuel (dorksOf env n) [] st allItems hloop
  refine ⟨service, hns, hlen, ?_⟩
  rw [buildResponse_Items, hall]
  simp

/-- Witness for C2: a scan of four successful dorks. -/
theorem Scan_items_are_searched_items_witness :
    (stubScanner.Scan stubEnv 1 "second" 0).ret =
        some (some (stubScanner.buildResponse
          [⟨"title", "link"⟩, ⟨"", ""⟩, ⟨"title", "link"⟩, ⟨"", ""⟩,
            ⟨"title", "link"⟩, ⟨"", ""⟩, ⟨"title", "link"⟩, ⟨"", ""⟩]), none) ∧
    ∃ service, stubEnv.NewService stubScanner.ApiKey = Except.ok service ∧
      (searchedItems stubScanner service 1 (dorksOf stubEnv "second") 0).length =
        (dorksOf stubEnv "second").length ∧
      (stubScanner.buildResponse
          [⟨"title", "link"⟩, ⟨"", ""⟩, ⟨"title", "link"⟩, ⟨"", ""⟩,
            ⟨"title", "link"⟩, ⟨"", ""⟩, ⟨"title", "link"⟩, ⟨"", ""⟩]).Items =
        (searchedItems stubScanner service 1 (dorksOf stubEnv "second") 0).flatten.map
          (fun item => (⟨item.Title, item.Link⟩ : ResultItem)) :=
  ⟨by decide, Scan_items_are_searched_items stubScanner stubEnv 1 "second" 0
    (stubScanner.buildResponse
      [⟨"title", "link"⟩, ⟨"", ""⟩, ⟨"title", "link"⟩, ⟨"", ""⟩,
        ⟨"title", "link"⟩, ⟨"", ""⟩, ⟨"title", "link"⟩, ⟨"", ""⟩]) (by decide)⟩

/-- C3: when `Scan` succeeds, the response's `ResultCount` and the number of
its items both equal the total number of items the searches returned, summed
over the dorks. -/
theorem Scan_result_count {ν σ : Type} (s : googleCSEScanner) (env : Env ν σ)
    (fuel : Nat) (n : ν) (st : σ) (resp : GoogleCSEScannerResponse)
    (h : (s.Scan env fuel n st).ret = some (some resp, none)) :
    ∃ service, env.NewService s.ApiKey = Except.ok service ∧
      resp.ResultCount =
        (((searchedItems s service fuel (dorksOf env n) st).map List.length).sum : Nat) ∧
      resp.Items.length =
        ((searchedItems s service fuel (dorksOf env n) st).map List.length).sum ∧
      resp.ResultCount = (resp.Items.length : Nat) := by
  obtain ⟨service, allItems, hns, hloop, rfl⟩ := Scan_success_inv s env fuel n st resp h
  obtain ⟨_, hall⟩ := scanLoop_items s service fuel (dorksOf env n) [] st allItems hloop
  have hlen : allItems.length =
      ((searchedItems s service fuel (dorksOf env n) st).map List.length).sum := by
    rw [hall]; simp
  refine ⟨service, hns, ?_, ?_, ?_⟩
  · simp [googleCSEScanner.buildResponse, hlen]
  · rw [buildResponse_Items, List.length_map, hlen]
  · rw [buildResponse_Items, List.length_map]
    rfl

/-- Witness for C3: a scan of four successful dorks, two items each. -/
theorem Scan_result_count_witness :
    (stubScanner.Scan stubEnv 1 "second" 0).ret =
        some (some ⟨"https://cse.google.com/cse?cx=cx", 8,
          [⟨"title", "link"⟩, ⟨"", ""⟩, ⟨"title", "link"⟩, ⟨"", ""⟩,
            ⟨"title", "link"⟩, ⟨"", ""⟩, ⟨"title", "link"⟩, ⟨"", ""⟩]⟩, none) ∧
    ∃ service, stubEnv.NewService stubScanner.ApiKey = Except.ok service ∧
      (8 : Int) =
        (((searchedItems stubScanner service 1 (dorksOf stubEnv "second") 0).map
          List.length).sum : Nat) ∧
      ([⟨"title", "link"⟩, ⟨"", ""⟩, ⟨"title", "link"⟩, ⟨"", ""⟩,
            ⟨"title", "link"⟩, ⟨"", ""⟩, ⟨"title", "link"⟩, ⟨"", ""⟩] : List ResultItem).length =
        ((searchedItems stubScanner service 1 (dorksOf stubEnv "second") 0).map
          List.length).sum ∧
      (8 : Int) = (([⟨"title", "link"⟩, ⟨"", ""⟩, ⟨"title", "link"⟩, ⟨"", ""⟩,
            ⟨"title", "link"⟩, ⟨"", ""⟩, ⟨"title", "link"⟩, ⟨"", ""⟩] :
              List ResultItem).length : Nat) :=
  ⟨by decide, Scan_result_count stubScanner stubEnv 1 "second" 0
    ⟨"https://cse.google.com/cse?cx=cx", 8,
      [⟨"title", "link"⟩, ⟨"", ""⟩, ⟨"title", "link"⟩, ⟨"", ""⟩,
        ⟨"title", "link"⟩, ⟨"", ""⟩, ⟨"title", "link"⟩, ⟨"", ""⟩]⟩ (by decide)⟩

/-- C4: if some request made during `Scan` fails with an API error of code
429, then `Scan` returns no response and the error with the fixed rate-limit
message, and the failing request is the last one issued: nothing before it
failed and nothing follows it. -/
theorem Scan_rate_limit {ν σ : Type} (s : googleCSEScanner) (env : Env ν σ)
    (fuel : Nat) (n : ν) (st : σ) (ex : Exchange) (msg : String)
    (hmem : ex ∈ (s.Scan env fuel n st).trace)
    (hfail : ex.reply = Reply.fail (GoError.googleapi 429 msg)) :
    (s.Scan env fuel n st).ret =
        some (none, some (GoError.errorString
          "rate limit exceeded, see https://developers.google.com/custom-search/v1/overview#pricing")) ∧
      ∃ pre, (s.Scan env fuel n st).trace = pre ++ [ex] ∧ ∀ x ∈ pre, x.failure = none := by
  rcases hns : env.NewService s.ApiKey with e | service
  · rw [Scan_newService_error _ _ _ _ _ _ hns] at hmem
    simp at hmem
  · obtain ⟨e0, hshape, hret⟩ := Scan_shape s env fuel n st service hns
    have hf : ex.failure = some (GoError.googleapi 429 msg) := by
      simp [Exchange.failure, hfail]
    obtain ⟨he0, hpre⟩ := hshape.of_failed hmem hf
    refine ⟨?_, hpre⟩
    rw [hret _ he0]
    simp [googleCSEScanner.scanError, googleCSEScanner.isRateLimit, rateLimitMessage]

/-- Witness for C4: the second of four dorks hits the rate limit. -/
theorem Scan_rate_limit_witness :
    (⟨⟨"cx", "limit", 0⟩, Reply.fail (GoError.googleapi 429 "quota")⟩ : Exchange) ∈
        (stubScanner.Scan stubEnv 1 "limit" 0).trace ∧
    ((stubScanner.Scan stubEnv 1 "limit" 0).ret =
        some (none, some (GoError.errorString
          "rate limit exceeded, see https://developers.google.com/custom-search/v1/overview#pricing")) ∧
      ∃ pre, (stubScanner.Scan stubEnv 1 "limit" 0).trace =
          pre ++ [⟨⟨"cx", "limit", 0⟩, Reply.fail (GoError.googleapi 429 "quota")⟩] ∧
        ∀ x ∈ pre, x.failure = none) :=
  ⟨by decide, Scan_rate_limit stubScanner stubEnv 1 "limit" 0
    ⟨⟨"cx", "limit", 0⟩, Reply.fail (GoError.googleapi 429 "quota")⟩ "quota" (by decide) rfl⟩

/-- C5: whenever `Scan` returns an error it returns no response.  Either the
client could not be built and no request was issued, or the dorks split into
a first part whose searches all succeeded, the dork whose search failed, and
the rest: the requests issued are those of the first part followed by those
of the failing search and nothing for the rest, and unless the failing
search's error is a rate-limit failure, `Scan` returns that very error. -/
theorem Scan_all_or_nothing {ν σ : Type} (s : googleCSEScanner) (env : Env ν σ)
    (fuel : Nat) (n : ν) (st : σ) (resp : Option GoogleCSEScannerResponse) (e : GoError)
    (h : (s.Scan env fuel n st).ret = some (resp, some e)) :
    resp = none ∧
      ((env.NewService s.ApiKey = Except.error e ∧ (s.Scan env fuel n st).trace = []) ∨
        ∃ service pre d post acc st1 tr1 items e0,
          env.NewService s.ApiKey = Except.ok service ∧
          dorksOf env n = pre ++ d :: post ∧
          s.scanLoop service fuel pre [] st = ⟨some (acc, none), st1, tr1⟩ ∧
          (s.search service fuel d.Dork st1).ret = some (items, some e0) ∧
          (s.isRateLimit (some e0) = false → e = e0) ∧
          (s.Scan env fuel n st).trace = tr1 ++ (s.search service fuel d.Dork st1).trace ∧
          (s.Scan env fuel n st).state = (s.search service fuel d.Dork st1).state) := by
  rcases hns : env.NewService s.ApiKey with e1 | service
  · rw [Scan_newService_error _ _ _ _ _ _ hns] at h ⊢
    simp only [Option.some.injEq, Prod.mk.injEq] at h
    refine ⟨h.1.symm, Or.inl ⟨?_, rfl⟩⟩
    rw [h.2]
  · rcases search_ret_cases (s.scanLoop service fuel (dorksOf env n) [] st)
      with h0 | ⟨items, e1, h1⟩ | ⟨items, h2⟩
    · rw [Scan_out_of_fuel _ _ _ _ _ _ hns h0] at h
      simp at h
    · obtain ⟨pre, d, post, acc, st1, tr1, items1, e0, hd, hpre, hsearch, he, htr, hst⟩ :=
        scanLoop_error_split s service fuel (dorksOf env n) [] st items e1 h1
      rw [Scan_error _ _ _ _ _ _ hns _ _ h1] at h ⊢
      simp only [Option.some.injEq, Prod.mk.injEq] at h
      refine ⟨h.1.symm, Or.inr ⟨service, pre, d, post, acc, st1, tr1, items1, e0, rfl, hd, hpre,
        hsearch, ?_, htr, hst⟩⟩
      intro hrl
      rw [← h.2, he]
      simp [googleCSEScanner.scanError, hrl]
    · rw [Scan_ok _ _ _ _ _ _ hns _ h2] at h
      simp at h

/-- Witness for C5: the second of four dorks fails with a transport error. -/
theorem Scan_all_or_nothing_witness :
    (stubScanner.Scan stubEnv 1 "down" 0).ret = some (none, some (GoError.other "timeout")) ∧
    ((none : Option GoogleCSEScannerResponse) = none ∧
      ((stubEnv.NewService stubScanner.ApiKey = Except.error (GoError.other "timeout") ∧
          (stubScanner.Scan stubEnv 1 "down" 0).trace = []) ∨
        ∃ service pre d post acc st1 tr1 items e0,
          stubEnv.NewService stubScanner.ApiKey = Except.ok service ∧
          dorksOf stubEnv "down" = pre ++ d :: post ∧
          stubScanner.scanLoop service 1 pre [] 0 = ⟨some (acc, none), st1, tr1⟩ ∧
          (stubScanner.search service 1 d.Dork st1).ret = some (items, some e0) ∧
          (stubScanner.isRateLimit (some e0) = false → GoError.other "timeout" = e0) ∧
          (stubScanner.Scan stubEnv 1 "down" 0).trace =
            tr1 ++ (stubScanner.search service 1 d.Dork st1).trace ∧
          (stubScanner.Scan stubEnv 1 "down" 0).state =
            (stubScanner.search service 1 d.Dork st1).state)) :=
  ⟨by decide, Scan_all_or_nothing stubScanner stubEnv 1 "down" 0 none (GoError.other "timeout")
    (by decide)⟩

/-- C6: if some request made during `Scan` is answered with a page whose
total-result-count is not a valid integer, then `Scan` returns no response
and the parse error of `Atoi`, and that request is the last one issued:
nothing before it failed and nothing follows it. -/
theorem Scan_parse_error {ν σ : Type} (s : googleCSEScanner) (env : Env ν σ)
    (fuel : Nat) (n : ν) (st : σ) (ex : Exchange) (page : Search) (e : GoError)
    (hmem : ex ∈ (s.Scan env fuel n st).trace)
    (hreply : ex.reply = Reply.ok page)
    (hparse : (Atoi page.TotalResults).2 = some e) :
    (s.Scan env fuel n st).ret = some (none, some e) ∧
      (∃ k, e = GoError.numError "Atoi" page.TotalResults k) ∧
      ∃ pre, (s.Scan env fuel n st).trace = pre ++ [ex] ∧ ∀ x ∈ pre, x.failure = none := by
  rcases hns : env.NewService s.ApiKey with e1 | service
  · rw [Scan_newService_error _ _ _ _ _ _ hns] at hmem
    simp at hmem
  · obtain ⟨e0, hshape, hret⟩ := Scan_shape s env fuel n st service hns
    have hf : ex.failure = some e := by
      simp [Exchange.failure, hreply, hparse]
    obtain ⟨he0, hpre⟩ := hshape.of_failed hmem hf
    obtain ⟨k, hk⟩ := Atoi_error_numError _ _ hparse
    refine ⟨?_, ⟨k, hk⟩, hpre⟩
    rw [hret _ he0, hk]
    simp [googleCSEScanner.scanError, googleCSEScanner.isRateLimit]

/-- Witness for C6: the second of four dorks gets a page that reports the
total-result-count `"many"`. -/
theorem Scan_parse_error_witness :
    ((⟨⟨"cx", "bad", 0⟩, Reply.ok ⟨[⟨"t", "u"⟩], "many"⟩⟩ : Exchange) ∈
        (stubScanner.Scan stubEnv 1 "bad" 0).trace ∧
      (Atoi "many").2 = some (GoError.numError "Atoi" "many" NumErr.ErrSyntax)) ∧
    ((stubScanner.Scan stubEnv 1 "bad" 0).ret =
        some (none, some (GoError.numError "Atoi" "many" NumErr.ErrSyntax)) ∧
      (∃ k, GoError.numError "Atoi" "many" NumErr.ErrSyntax =
        GoError.numError "Atoi" (⟨[⟨"t", "u"⟩], "many"⟩ : Search).TotalResults k) ∧
      ∃ pre, (stubScanner.Scan stubEnv 1 "bad" 0).trace =
          pre ++ [⟨⟨"cx", "bad", 0⟩, Reply.ok ⟨[⟨"t", "u"⟩], "many"⟩⟩] ∧
        ∀ x ∈ pre, x.failure = none) :=
  ⟨⟨by decide, by decide⟩, Scan_parse_error stubScanner stubEnv 1 "bad" 0
    ⟨⟨"cx", "bad", 0⟩, Reply.ok ⟨[⟨"t", "u"⟩], "many"⟩⟩ ⟨[⟨"t", "u"⟩], "many"⟩
    (GoError.numError "Atoi" "many" NumErr.ErrSyntax) (by decide) rfl (by decide)⟩

/-! ## Claims about `search` -/

/-- C8: with a non-negative cap, if the first page for the query is delivered
and reports a total-result-count that parses to an integer no larger than the
cap, then `search`, given fuel for at least one iteration, issues exactly one
request, at start offset 0, and returns exactly that page's items. -/
theorem search_single_page {σ : Type} (s : googleCSEScanner) (service : Service σ)
    (fuel : Nat) (q : String) (st st1 : σ) (page : Search) (total : Int)
    (hcap : 0 ≤ s.MaxResults)
    (hdo : service.Do st ⟨s.Cx, q, 0⟩ = (Reply.ok page, st1))
    (hparse : Atoi page.TotalResults = (total, none))
    (hle : total ≤ s.MaxResults) :
    (s.search service (fuel + 1) q st).ret = some (page.Items, none) ∧
      (s.search service (fuel + 1) q st).trace = [⟨⟨s.Cx, q, 0⟩, Reply.ok page⟩] ∧
      (s.search service (fuel + 1) q st).state = st1 := by
  unfold googleCSEScanner.search
  rw [searchLoop_break s service q fuel 0 [] st st1 page total hcap hdo hparse hle]
  simp

/-- Witness for C8: total-result-count `"5"` with a cap of 10. -/
theorem search_single_page_witness :
    ((0 : Int) ≤ stubScanner.MaxResults ∧
      stubService.Do 0 ⟨stubScanner.Cx, "q", 0⟩ =
        (Reply.ok ⟨[⟨"title", "link"⟩, ⟨"", ""⟩], "5"⟩, 1) ∧
      Atoi (⟨[⟨"title", "link"⟩, ⟨"", ""⟩], "5"⟩ : Search).TotalResults = (5, none) ∧
      (5 : Int) ≤ stubScanner.MaxResults) ∧
    ((stubScanner.search stubService (0 + 1) "q" 0).ret =
        some ((⟨[⟨"title", "link"⟩, ⟨"", ""⟩], "5"⟩ : Search).Items, none) ∧
      (stubScanner.search stubService (0 + 1) "q" 0).trace =
        [⟨⟨stubScanner.Cx, "q", 0⟩, Reply.ok ⟨[⟨"title", "link"⟩, ⟨"", ""⟩], "5"⟩⟩] ∧
      (stubScanner.search stubService (0 + 1) "q" 0).state = 1) :=
  ⟨⟨by decide, by decide, by decide, by decide⟩,
    search_single_page stubScanner stubService 0 "q" 0 1
      ⟨[⟨"title", "link"⟩, ⟨"", ""⟩], "5"⟩ 5 (by decide) (by decide) (by decide) (by decide)⟩

/-- C9: in every run of `search` the first request starts at offset 0, each
later request starts where the previous one started plus the number of items
the previous page held, and a successful run returns the items of the pages
fetched, concatenated in request order. -/
theorem search_offsets_and_items {σ : Type} (s : googleCSEScanner) (service : Service σ)
    (fuel : Nat) (q : String) (st : σ) :
    (∀ ex ∈ (s.search service fuel q st).trace.head?, ex.req.Start = 0) ∧
      List.Chain' (fun a b : Exchange => b.req.Start = a.req.Start + (a.items.length : Int))
        (s.search service fuel q st).trace ∧
      (∀ res, (s.search service fuel q st).ret = some (res, none) →
        res = ((s.search service fuel q st).trace.map Exchange.items).flatten) := by
  obtain ⟨h1, h2, _, h4⟩ := searchLoop_offsets s service q fuel 0 [] st
  exact ⟨h1, h2, fun res hres => by simpa using h4 res hres⟩

/-- Witness for C9: pages of ten items reporting a total of `"25"` under a cap
of 10 are requested at offsets 0 and 10, and the twenty items are returned. -/
theorem search_offsets_and_items_witness :
    ((stubScanner.search pagingService 2 "q" ()).trace.map (fun ex => ex.req.Start) = [0, 10] ∧
      (stubScanner.search pagingService 2 "q" ()).ret =
        some (List.replicate 20 ⟨"t", "l"⟩, none)) ∧
    ((∀ ex ∈ (stubScanner.search pagingService 2 "q" ()).trace.head?, ex.req.Start = 0) ∧
      List.Chain' (fun a b : Exchange => b.req.Start = a.req.Start + (a.items.length : Int))
        (stubScanner.search pagingService 2 "q" ()).trace ∧
      (∀ res, (stubScanner.search pagingService 2 "q" ()).ret = some (res, none) →
        res = ((stubScanner.search pagingService 2 "q" ()).trace.map Exchange.items).flatten)) :=
  ⟨⟨by decide, by decide⟩, search_offsets_and_items stubScanner pagingService 2 "q" ()⟩

/-- C10 (the code at the failing input): against a client that answers every
request with an empty page reporting a total of `"25"`, `search` with a cap of
10 never returns: whatever the fuel, the run is still looping when the fuel
runs out, having issued one request per unit of fuel, all at start offset 0. -/
theorem search_loops_on_empty_pages (fuel : Nat) :
    (stubScanner.search emptyPagesService fuel "q" ()).ret = none ∧
      (stubScanner.search emptyPagesService fuel "q" ()).trace =
        List.replicate fuel ⟨⟨"cx", "q", 0⟩, Reply.ok ⟨[], "25"⟩⟩ := by
  unfold googleCSEScanner.search
  induction fuel with
  | zero => exact ⟨rfl, rfl⟩
  | succ fuel ih =>
    have hstep := searchLoop_continue stubScanner emptyPagesService "q" fuel 0 [] () ()
      ⟨[], "25"⟩ 25 (by decide) rfl (by decide) (by decide)
    rw [hstep]
    simp only [Run.after]
    exact ⟨ih.1, by rw [List.replicate_succ]; exact congrArg _ ih.2⟩

/-- C11 (counterexample): with a cap of 5 and a client whose pages hold ten
items, `search` returns ten items, more than the cap. -/
theorem search_items_exceed_cap :
    ((1 : Int) ≤ capFiveScanner.MaxResults ∧ capFiveScanner.MaxResults ≤ 100) ∧
    (∀ st req page st1, pagingService.Do st req = (Reply.ok page, st1) →
      page.Items.length ≤ 10) ∧
    (capFiveScanner.search pagingService 1 "q" ()).ret =
      some (List.replicate 10 ⟨"t", "l"⟩, none) ∧
    ¬ (((List.replicate 10 ⟨"t", "l"⟩ : List Result).length : Int) ≤
      capFiveScanner.MaxResults) := by
  refine ⟨by decide, ?_, by decide, by decide⟩
  intro st req page st1 h
  simp only [pagingService, Prod.mk.injEq, Reply.ok.injEq] at h
  rw [← h.1]
  decide

/-- C11 (amended): for every cap in 1..100 and every client whose pages each
hold at most 10 items, a run of `search` that issues no request at a start
offset equal to `MaxResults` returns at most `MaxResults + 9` items for one
query. -/
theorem search_items_le_cap_plus_nine {σ : Type} (s : googleCSEScanner) (service : Service σ)
    (fuel : Nat) (q : String) (st : σ) (res : List Result)
    (hlo : 1 ≤ s.MaxResults) (hhi : s.MaxResults ≤ 100)
    (hpages : ∀ st req page st1, service.Do st req = (Reply.ok page, st1) →
      page.Items.length ≤ 10)
    (hbelow : ∀ ex ∈ (s.search service fuel q st).trace, ex.req.Start ≠ s.MaxResults)
    (hret : (s.search service fuel q st).ret = some (res, none)) :
    (res.length : Int) ≤ s.MaxResults + 9 := by
  have h := searchLoop_length_lt s service q 10 hpages fuel 0 [] st hbelow rfl
    (by simp only [List.length_nil]; push_cast; omega) res hret
  push_cast at h
  omega

/-- Witness for the amended C11: pages of ten items under a cap of 5, one
request at start offset 0. -/
theorem search_items_le_cap_plus_nine_witness :
    ((1 : Int) ≤ capFiveScanner.MaxResults ∧ capFiveScanner.MaxResults ≤ 100 ∧
      (∀ st req page st1, pagingService.Do st req = (Reply.ok page, st1) →
        page.Items.length ≤ 10) ∧
      (∀ ex ∈ (capFiveScanner.search pagingService 1 "q" ()).trace,
        ex.req.Start ≠ capFiveScanner.MaxResults) ∧
      (capFiveScanner.search pagingService 1 "q" ()).ret =
        some (List.replicate 10 ⟨"t", "l"⟩, none)) ∧
    (((List.replicate 10 ⟨"t", "l"⟩ : List Result).length : Int) ≤
      capFiveScanner.MaxResults + 9) :=
  have hp : ∀ st req page st1, pagingService.Do st req = (Reply.ok page, st1) →
      page.Items.length ≤ 10 := by
    intro st req page st1 h
    simp only [pagingService, Prod.mk.injEq, Reply.ok.injEq] at h
    rw [← h.1]
    decide
  ⟨⟨by decide, by decide, hp, by decide, by decide⟩,
    search_items_le_cap_plus_nine capFiveScanner pagingService 1 "q" ()
      (List.replicate 10 ⟨"t", "l"⟩) (by decide) (by decide) hp (by decide) (by decide)⟩

/-- C12 (the code at the failing input): the scanner built with
`GOOGLECSE_MAX_RESULTS` unset has a cap of 10, and against a client whose
pages hold ten items and report a total of `"25"` its `search` issues two
requests for one query, at start offsets 0 and 10, whenever it has fuel for
two iterations or more. -/
theorem search_default_fetches_second_page (fuel : Nat) :
    (NewGoogleCSEScanner "" "cx" "key").MaxResults = 10 ∧
    ((NewGoogleCSEScanner "" "cx" "key").search pagingService (2 + fuel) "q" ()).trace =
      [⟨⟨"cx", "q", 0⟩, Reply.ok ⟨List.replicate 10 ⟨"t", "l"⟩, "25"⟩⟩,
        ⟨⟨"cx", "q", 10⟩, Reply.ok ⟨List.replicate 10 ⟨"t", "l"⟩, "25"⟩⟩] ∧
    ((NewGoogleCSEScanner "" "cx" "key").search pagingService (2 + fuel) "q" ()).ret =
      some (List.replicate 20 ⟨"t", "l"⟩, none) := by
  have h2 : ((NewGoogleCSEScanner "" "cx" "key").search pagingService 2 "q" ()).ret ≠ none := by
    decide
  have hmore : (NewGoogleCSEScanner "" "cx" "key").search pagingService (2 + fuel) "q" () =
      (NewGoogleCSEScanner "" "cx" "key").search pagingService 2 "q" () :=
    searchLoop_more_fuel _ pagingService "q" fuel 2 0 [] () h2
  rw [hmore]
  exact ⟨by decide, by decide, by decide⟩

/-- C18: for every cap `M ≥ 0` and every client whose delivered pages all
hold at least one item, `search` given fuel for `M + 1` iterations returns,
having issued at most `M + 1` requests, each with a start offset between 0
and `M` inclusive. -/
theorem search_terminates_nonempty_pages {σ : Type} (s : googleCSEScanner)
    (service : Service σ) (fuel : Nat) (q : String) (st : σ)
    (hcap : 0 ≤ s.MaxResults)
    (hpages : ∀ st req page st1, service.Do st req = (Reply.ok page, st1) →
      1 ≤ page.Items.length)
    (hfuel : (s.MaxResults + 1).toNat ≤ fuel) :
    (∃ v, (s.search service fuel q st).ret = some v) ∧
      ((s.search service fuel q st).trace.length : Int) ≤ s.MaxResults + 1 ∧
      ∀ ex ∈ (s.search service fuel q st).trace,
        0 ≤ ex.req.Start ∧ ex.req.Start ≤ s.MaxResults := by
  obtain ⟨h1, h2, h3⟩ := searchLoop_terminates s service q hpages fuel 0 [] st
    (by simpa using hfuel)
  refine ⟨Option.ne_none_iff_exists'.1 h1, ?_, h3⟩
  have h2' : (s.searchLoop service q fuel 0 [] st).trace.length ≤ (s.MaxResults + 1).toNat := by
    simpa using h2
  unfold googleCSEScanner.search
  omega

/-- Witness for C18: pages of ten items under a cap of 10, fuel for 11
iterations. -/
theorem search_terminates_nonempty_pages_witness :
    ((0 : Int) ≤ stubScanner.MaxResults ∧
      (∀ st req page st1, pagingService.Do st req = (Reply.ok page, st1) →
        1 ≤ page.Items.length) ∧
      (stubScanner.MaxResults + 1).toNat ≤ 11) ∧
    ((∃ v, (stubScanner.search pagingService 11 "q" ()).ret = some v) ∧
      ((stubScanner.search pagingService 11 "q" ()).trace.length : Int) ≤
        stubScanner.MaxResults + 1 ∧
      ∀ ex ∈ (stubScanner.search pagingService 11 "q" ()).trace,
        0 ≤ ex.req.Start ∧ ex.req.Start ≤ stubScanner.MaxResults) :=
  have hp : ∀ st req page st1, pagingService.Do st req = (Reply.ok page, st1) →
      1 ≤ page.Items.length := by
    intro st req page st1 h
    simp only [pagingService, Prod.mk.injEq, Reply.ok.injEq] at h
    rw [← h.1]
    decide
  ⟨⟨by decide, hp, by decide⟩,
    search_terminates_nonempty_pages stubScanner pagingService 11 "q" ()
      (by decide) hp (by decide)⟩

/-- C19: with a negative cap, `search` issues no request and returns the
empty list without error for every query, client and amount of fuel, and
`Scan`, once its client is built, returns a response with `ResultCount` 0 and
no items, without error and without issuing a request, whatever the dorks and
the client. -/
theorem Scan_negative_cap_empty {ν σ : Type} (s : googleCSEScanner)
    (hneg : s.MaxResults < 0) :
    (∀ (service : Service σ) (fuel : Nat) (q : String) (st : σ),
      (s.search service fuel q st).ret = some ([], none) ∧
      (s.search service fuel q st).trace = [] ∧
      (s.search service fuel q st).state = st) ∧
    (∀ (env : Env ν σ) (service : Service σ) (fuel : Nat) (n : ν) (st : σ),
      env.NewService s.ApiKey = Except.ok service →
      (s.Scan env fuel n st).ret =
        some (some ⟨"https://cse.google.com/cse?cx=" ++ s.Cx, 0, []⟩, none) ∧
      (s.Scan env fuel n st).trace = [] ∧
      (s.Scan env fuel n st).state = st) := by
  constructor
  · intro service fuel q st
    have hs : s.search service fuel q st = ⟨some ([], none), st, []⟩ :=
      searchLoop_exit s service q fuel 0 [] st (by omega)
    rw [hs]
    exact ⟨rfl, rfl, rfl⟩
  · intro env service fuel n st hns
    have hl := scanLoop_negative_cap s service hneg fuel (dorksOf env n) [] st
    rw [Scan_ok s env fuel n st service hns [] (by rw [hl]), hl]
    exact ⟨rfl, rfl, rfl⟩

/-- Witness for C19: the scanner built with `GOOGLECSE_MAX_RESULTS="-1"` has
a cap of -1. -/
theorem Scan_negative_cap_empty_witness :
    ((NewGoogleCSEScanner "-1" "cx" "key").MaxResults = -1 ∧
      (NewGoogleCSEScanner "-1" "cx" "key").MaxResults < 0) ∧
    ((∀ (service : Service Nat) (fuel : Nat) (q : String) (st : Nat),
      ((NewGoogleCSEScanner "-1" "cx" "key").search service fuel q st).ret = some ([], none) ∧
      ((NewGoogleCSEScanner "-1" "cx" "key").search service fuel q st).trace = [] ∧
      ((NewGoogleCSEScanner "-1" "cx" "key").search service fuel q st).state = st) ∧
    (∀ (env : Env String Nat) (service : Service Nat) (fuel : Nat) (n : String) (st : Nat),
      env.NewService (NewGoogleCSEScanner "-1" "cx" "key").ApiKey = Except.ok service →
      ((NewGoogleCSEScanner "-1" "cx" "key").Scan env fuel n st).ret =
        some (some ⟨"https://cse.google.com/cse?cx=" ++ (NewGoogleCSEScanner "-1" "cx" "key").Cx,
          0, []⟩, none) ∧
      ((NewGoogleCSEScanner "-1" "cx" "key").Scan env fuel n st).trace = [] ∧
      ((NewGoogleCSEScanner "-1" "cx" "key").Scan env fuel n st).state = st)) :=
  ⟨⟨by decide, by decide⟩,
    Scan_negative_cap_empty (NewGoogleCSEScanner "-1" "cx" "key") (by decide)⟩

/-- C17: a successful `Scan` performs exactly the requests of one `search` per
dork, on the queries of the disposable-provider dorks, then the reputation
dorks, then the individual dorks, then the general dorks, each search starting
where the previous one left the client, and each of them returning
successfully. -/
theorem Scan_searches_each_dork_in_order {ν σ : Type} (s : googleCSEScanner) (env : Env ν σ)
    (fuel : Nat) (n : ν) (st : σ) (resp : GoogleCSEScannerResponse)
    (h : (s.Scan env fuel n st).ret = some (some resp, none)) :
    ∃ service, env.NewService s.ApiKey = Except.ok service ∧
      (searchRuns s service fuel
        ((env.getDisposableProvidersDorks n ++ env.getReputationDorks n ++
          env.getIndividualsDorks n ++ env.getGeneralDorks n).map (fun d => d.Dork)) st).length =
        (env.getDisposableProvidersDorks n).length + (env.getReputationDorks n).length +
          (env.getIndividualsDorks n).length + (env.getGeneralDorks n).length ∧
      (∀ r ∈ searchRuns s service fuel
          ((env.getDisposableProvidersDorks n ++ env.getReputationDorks n ++
            env.getIndividualsDorks n ++ env.getGeneralDorks n).map (fun d => d.Dork)) st,
        ∃ items, r.ret = some (items, none)) ∧
      (s.Scan env fuel n st).trace =
        ((searchRuns s service fuel
          ((env.getDisposableProvidersDorks n ++ env.getReputationDorks n ++
            env.getIndividualsDorks n ++ env.getGeneralDorks n).map (fun d => d.Dork)) st).map
          (fun r => r.trace)).flatten := by
  obtain ⟨service, allItems, hns, hloop, _⟩ := Scan_success_inv s env fuel n st resp h
  obtain ⟨h1, h2⟩ := scanLoop_runs s service fuel (dorksOf env n) [] st allItems hloop
  have hd : dorksOf env n = env.getDisposableProvidersDorks n ++ env.getReputationDorks n ++
      env.getIndividualsDorks n ++ env.getGeneralDorks n := by
    simp [dorksOf]
  rw [hd] at h1 h2
  refine ⟨service, hns, ?_, h1, ?_⟩
  · have hlen : ∀ (qs : List String) (st : σ), (searchRuns s service fuel qs st).length = qs.length := by
      intro qs
      induction qs with
      | nil => intro st; rfl
      | cons q qs ih => intro st; simp [searchRuns, ih]
    rw [hlen]
    simp only [List.length_map, List.length_append]
  · rw [Scan_ok s env fuel n st service hns allItems hloop]
    simp only [hd]
    exact h2

/-- Witness for C17: four generators returning one dork each give four
searches, on the disposable, reputation, individual and general dork in that
order. -/
theorem Scan_searches_each_dork_in_order_witness :
    ((stubScanner.Scan stubEnv 1 "second" 0).ret = some (some (stubScanner.buildResponse
          [⟨"title", "link"⟩, ⟨"", ""⟩, ⟨"title", "link"⟩, ⟨"", ""⟩,
            ⟨"title", "link"⟩, ⟨"", ""⟩, ⟨"title", "link"⟩, ⟨"", ""⟩]), none) ∧
      (stubScanner.Scan stubEnv 1 "second" 0).trace.map (fun ex => ex.req.Q) =
        ["first", "second", "third", "fourth"]) ∧
    (∃ service, stubEnv.NewService stubScanner.ApiKey = Except.ok service ∧
      (searchRuns stubScanner service 1
        ((stubEnv.getDisposableProvidersDorks "second" ++ stubEnv.getReputationDorks "second" ++
            stubEnv.getIndividualsDorks "second" ++ stubEnv.getGeneralDorks "second").map
            (fun d => d.Dork)) 0).length =
        (stubEnv.getDisposableProvidersDorks "second").length +
          (stubEnv.getReputationDorks "second").length +
          (stubEnv.getIndividualsDorks "second").length +
          (stubEnv.getGeneralDorks "second").length ∧
      (∀ r ∈ searchRuns stubScanner service 1
          ((stubEnv.getDisposableProvidersDorks "second" ++ stubEnv.getReputationDorks "second" ++
            stubEnv.getIndividualsDorks "second" ++ stubEnv.getGeneralDorks "second").map
            (fun d => d.Dork)) 0,
        ∃ items, r.ret = some (items, none)) ∧
      (stubScanner.Scan stubEnv 1 "second" 0).trace =
        ((searchRuns stubScanner service 1
          ((stubEnv.getDisposableProvidersDorks "second" ++ stubEnv.getReputationDorks "second" ++
            stubEnv.getIndividualsDorks "second" ++ stubEnv.getGeneralDorks "second").map
            (fun d => d.Dork)) 0).map
          (fun r => r.trace)).flatten) :=
  ⟨⟨by decide, by decide⟩,
    Scan_searches_each_dork_in_order stubScanner stubEnv 1 "second" 0
      (stubScanner.buildResponse
          [⟨"title", "link"⟩, ⟨"", ""⟩, ⟨"title", "link"⟩, ⟨"", ""⟩,
            ⟨"title", "link"⟩, ⟨"", ""⟩, ⟨"title", "link"⟩, ⟨"", ""⟩]) (by decide)⟩

/-! ## Claims about `NewGoogleCSEScanner` -/

/-- C13 (counterexample): the value `"9223372036854775808"` denotes an integer
greater than 100, yet the scanner built from it has a cap of 10, not 100:
`Atoi` rejects it as out of range and the default stays. -/
theorem max_results_too_large_not_clamped :
    denotedInt "9223372036854775808" = some 9223372036854775808 ∧
    (100 : Int) < 9223372036854775808 ∧
    (NewGoogleCSEScanner "9223372036854775808" "cx" "key").MaxResults = 10 ∧
    (NewGoogleCSEScanner "9223372036854775808" "cx" "key").MaxResults ≠ 100 := by
  refine ⟨by decide, by decide, by decide, by decide⟩

/-- C13 (amended): for every value of the max-results variable that denotes an
integer greater than 100 and within the range of a 64-bit `int`, the scanner
built has a cap of exactly 100. -/
theorem max_results_above_100_clamped (v cx key : String) (val : Int)
    (h : denotedInt v = some val) (hgt : 100 < val) (hfit : val < 2 ^ 63) :
    (NewGoogleCSEScanner v cx key).MaxResults = 100 := by
  have hp := Atoi_of_denoted v val h (by omega) hfit
  simp only [NewGoogleCSEScanner]
  rw [maxResultsOf_parsed v val hp, if_pos hgt]

/-- Witness for the amended C13: the value `"250"`. -/
theorem max_results_above_100_clamped_witness :
    (denotedInt "250" = some 250 ∧ (100 : Int) < 250 ∧ (250 : Int) < 2 ^ 63) ∧
    (NewGoogleCSEScanner "250" "cx" "key").MaxResults = 100 :=
  ⟨⟨by decide, by decide, by decide⟩,
    max_results_above_100_clamped "250" "cx" "key" 250 (by decide) (by decide) (by decide)⟩

/-- C14: for every value of the max-results variable that is empty, that
denotes no integer, or that `Atoi` rejects, the scanner built has a cap of
exactly 10. -/
theorem max_results_default_on_invalid (v cx key : String)
    (h : v = "" ∨ denotedInt v = none ∨ (Atoi v).2 ≠ none) :
    (NewGoogleCSEScanner v cx key).MaxResults = 10 := by
  simp only [NewGoogleCSEScanner]
  rcases h with rfl | h | h
  · exact maxResultsOf_empty
  · exact maxResultsOf_rejected v (Atoi_error_of_not_denoted v h)
  · exact maxResultsOf_rejected v h

/-- Witness for C14: the value `"abc"`. -/
theorem max_results_default_on_invalid_witness :
    ("abc" = "" ∨ denotedInt "abc" = none ∨ (Atoi "abc").2 ≠ none) ∧
    (NewGoogleCSEScanner "abc" "cx" "key").MaxResults = 10 :=
  ⟨Or.inr (Or.inl (by decide)),
    max_results_default_on_invalid "abc" "cx" "key" (Or.inr (Or.inl (by decide)))⟩

/-- C15 (counterexample): the values `"0"` and `"-1"` give caps of 0 and -1,
which are not at least 1. -/
theorem max_results_not_positive :
    (NewGoogleCSEScanner "0" "cx" "key").MaxResults = 0 ∧
    (NewGoogleCSEScanner "-1" "cx" "key").MaxResults = -1 ∧
    ¬ (1 ≤ (NewGoogleCSEScanner "0" "cx" "key").MaxResults) ∧
    ¬ (1 ≤ (NewGoogleCSEScanner "-1" "cx" "key").MaxResults) := by
  refine ⟨by decide, by decide, by decide, by decide⟩

/-- C15 (amended): for every value of the max-results variable that `Atoi`
does not parse to an integer below 1, the scanner built has a cap of at
least 1. -/
theorem max_results_positive_unless_parsed_below_one (v cx key : String)
    (h : ∀ val, Atoi v = (val, none) → 1 ≤ val) :
    1 ≤ (NewGoogleCSEScanner v cx key).MaxResults := by
  simp only [NewGoogleCSEScanner]
  rcases hp : Atoi v with ⟨val, _ | e⟩
  · have hval := h val hp
    rw [maxResultsOf_parsed v val hp]
    split_ifs <;> omega
  · rw [maxResultsOf_rejected v (by rw [hp]; simp)]
    decide

/-- Witness for the amended C15: the value `"-9223372036854775809"`, which
denotes an integer below 1 that `Atoi` rejects as out of range. -/
theorem max_results_positive_unless_parsed_below_one_witness :
    (∀ val, Atoi "-9223372036854775809" = (val, none) → 1 ≤ val) ∧
    1 ≤ (NewGoogleCSEScanner "-9223372036854775809" "cx" "key").MaxResults :=
  have hrej : ∀ val, Atoi "-9223372036854775809" = (val, none) → 1 ≤ val := by
    intro val hval
    have h2 : (Atoi "-9223372036854775809").2 = none := by rw [hval]
    have h3 : (Atoi "-9223372036854775809").2 ≠ none := by decide
    exact absurd h2 h3
  ⟨hrej, max_results_positive_unless_parsed_below_one "-9223372036854775809" "cx" "key" hrej⟩

/-- C16: for every value of the max-results variable whatsoever, the scanner
built has a cap of at most 100. -/
theorem max_results_le_100 (v cx key : String) :
    (NewGoogleCSEScanner v cx key).MaxResults ≤ 100 := by
  simp only [NewGoogleCSEScanner]
  rcases hp : Atoi v with ⟨val, _ | e⟩
  · rw [maxResultsOf_parsed v val hp]
    split_ifs <;> omega
  · rw [maxResultsOf_rejected v (by rw [hp]; simp)]
    decide

end GoogleCSE
